import Mathlib

/-!
Verification development for the PySpur workflow execution engine
(`backend/pyspur/execution/workflow_executor.py`).

The Python code is shallowly embedded below:
* the workflow schema (`WorkflowNodeSchema`, `Link`, `WorkflowDefinitionSchema`),
* the constructor / graph loader (`initExecutor`, `buildDependenciesE`,
  `getSourceHandles`, `processSubworkflows`),
* the per-node execution protocol (`execNode`, mirroring `_execute_node`),
* the memoised task map (`getTaskF`, mirroring
  `_get_async_task_for_node_execution`), driven by a fuel parameter
  (the Python code can dead-lock on cyclic graphs; `none` models a hang),
* the driver (`runModel`, mirroring `run`), and
* the output serializer (`serializeValue`, mirroring `_serialize_output`).

Node implementations (the node factory and node `__call__` bodies) live
outside the embedded file and are modelled by a `Behavior` oracle; the task
recorder is modelled by an event log inside the scheduler state.  Wall-clock
fields passed to the recorder (`end_time = datetime.now()`) and the textual
content of logged tracebacks carry no logic and are elided from events.

Python dictionaries are modelled by association lists with insertion-order
semantics (`aset` replaces in place or appends, matching CPython dict
update).  Python `set` iteration order is unspecified; the model fixes
insertion order.
-/

namespace PySpur

/-- `backend/pyspur/schemas/workflow_schemas.py` link schema: `source_id`,
`target_id` and an optional `source_handle`. -/
structure Link where
  source_id : String
  target_id : String
  source_handle : Option String := none
deriving DecidableEq, Repr

mutual
/-- A value stored in a node's `config` mapping: either an opaque payload or
an embedded sub-workflow definition (as stored by `_process_subworkflows`
under the `"subworkflow"` key). -/
inductive ConfigValue where
  | atom (s : String) : ConfigValue
  | subwf (w : WorkflowDefinitionSchema) : ConfigValue

/-- `WorkflowNodeSchema`: `id`, `title`, `node_type`, `config` mapping and
optional `parent_id`. -/
inductive WorkflowNodeSchema where
  | mk (id : String) (title : String) (node_type : String)
      (config : List (String × ConfigValue)) (parent_id : Option String) :
      WorkflowNodeSchema

/-- `WorkflowDefinitionSchema`: ordered `nodes` and `links`. -/
inductive WorkflowDefinitionSchema where
  | mk (nodes : List WorkflowNodeSchema) (links : List Link) :
      WorkflowDefinitionSchema
end

namespace WorkflowNodeSchema

def id : WorkflowNodeSchema → String
  | .mk i _ _ _ _ => i

def title : WorkflowNodeSchema → String
  | .mk _ t _ _ _ => t

def node_type : WorkflowNodeSchema → String
  | .mk _ _ ty _ _ => ty

def config : WorkflowNodeSchema → List (String × ConfigValue)
  | .mk _ _ _ c _ => c

def parent_id : WorkflowNodeSchema → Option String
  | .mk _ _ _ _ p => p

/-- `node.model_copy(update={"parent_id": None})`. -/
def clearParent : WorkflowNodeSchema → WorkflowNodeSchema
  | .mk i t ty c _ => .mk i t ty c none

/-- Replace the node's config mapping (used for the `parent_node.config`
update in `_process_subworkflows`). -/
def withConfig : WorkflowNodeSchema → List (String × ConfigValue) → WorkflowNodeSchema
  | .mk i t ty _ p, c => .mk i t ty c p

end WorkflowNodeSchema

namespace WorkflowDefinitionSchema

def nodes : WorkflowDefinitionSchema → List WorkflowNodeSchema
  | .mk ns _ => ns

def links : WorkflowDefinitionSchema → List Link
  | .mk _ ls => ls

end WorkflowDefinitionSchema

/-- Python truthiness of an `Optional[str]`: `None` and `""` are falsy. -/
def strTruthy : Option String → Bool
  | none => false
  | some s => s ≠ ""

/-- In-place association-list update with CPython dict semantics: an existing
key keeps its position, a new key is appended. -/
def aset {α : Type} : List (String × α) → String → α → List (String × α)
  | [], k, v => [(k, v)]
  | (k', v') :: rest, k, v =>
      if k' == k then (k, v) :: rest else (k', v') :: aset rest k v

/-- `aset` for a dict keyed by an id pair (the router handle map). -/
def asetPair {α : Type} : List ((String × String) × α) → (String × String) → α →
    List ((String × String) × α)
  | [], k, v => [(k, v)]
  | (k', v') :: rest, k, v =>
      if k' == k then (k, v) :: rest else (k', v') :: asetPair rest k v

/-- `dict.pop(key, None)`: drop the entry for a key. -/
def apop {α : Type} (l : List (String × α)) (k : String) : List (String × α) :=
  l.filter (fun e => e.1 ≠ k)

/-- `set.add`: append if absent (insertion-ordered model of a Python set). -/
def saddStr (l : List String) (k : String) : List String :=
  if l.contains k then l else l ++ [k]

/-- First-occurrence deduplication, modelling the key order obtained by
inserting a sequence of keys into a dict/set. -/
def dedupFirst (l : List String) : List String :=
  l.foldl saddStr []

/-! ## Graph loader: `_process_subworkflows` (defined in the source but never
invoked by `__init__`). -/

/-- Group nodes by `parent_id` with each node copied with its `parent_id`
cleared, preserving the first-occurrence order of parent keys and the node
order inside each group (lines 84-91 of `workflow_executor.py`). -/
def groupNodesByParent (nodes : List WorkflowNodeSchema) :
    List (Option String × List WorkflowNodeSchema) :=
  nodes.foldl
    (fun acc node =>
      let key := node.parent_id
      match acc.lookup key with
      | some grp => acc.map (fun e => if e.1 == key then (key, grp ++ [node.clearParent]) else e)
      | none => acc ++ [(key, [node.clearParent])])
    []

/-- Update the first root node whose id matches `pid` by merging the
`"subworkflow"` entry into its config (`{**parent_node.config,
"subworkflow": subworkflow.model_dump()}`). -/
def attachSubworkflow (roots : List WorkflowNodeSchema) (pid : String)
    (sub : WorkflowDefinitionSchema) : List WorkflowNodeSchema :=
  match roots with
  | [] => []
  | r :: rest =>
      if r.id == pid then
        r.withConfig (aset r.config "subworkflow" (ConfigValue.subwf sub)) :: rest
      else
        r :: attachSubworkflow rest pid sub

/-- The `for parent_id, child_nodes in nodes_by_parent.items()` loop
(lines 97-121): each non-null parent id found among the current root nodes
gets the subworkflow of its children merged into its config. -/
def attachAll (wfLinks : List Link)
    (groups : List (Option String × List WorkflowNodeSchema))
    (roots : List WorkflowNodeSchema) : List WorkflowNodeSchema :=
  match groups with
  | [] => roots
  | entry :: rest =>
      match entry.1 with
      | none => attachAll wfLinks rest roots
      | some pid =>
          if (roots.filter (fun r => r.id == pid)).isEmpty then
            attachAll wfLinks rest roots
          else
            let childIds := entry.2.map WorkflowNodeSchema.id
            let subLinks := wfLinks.filter
              (fun link =>
                childIds.contains link.source_id && childIds.contains link.target_id)
            attachAll wfLinks rest (attachSubworkflow roots pid (.mk entry.2 subLinks))

/-- `_process_subworkflows` (lines 83-135): hoist every parent's children into
`parent.config.subworkflow` and keep only root nodes and links between
nodes with falsy `parent_id`. -/
def processSubworkflows (workflow : WorkflowDefinitionSchema) : WorkflowDefinitionSchema :=
  let groups := groupNodesByParent workflow.nodes
  let rootNodes := (groups.lookup (none : Option String)).getD []
  let finalRoots := attachAll workflow.links groups rootNodes
  let topLinks := workflow.links.filter
    (fun link =>
      ! workflow.nodes.any
        (fun node =>
          (node.id == link.source_id || node.id == link.target_id) &&
            strTruthy node.parent_id))
  .mk finalRoots topLinks

/-! ## Constructor (`__init__`, `_build_node_dict`, `_build_dependencies`). -/

/-- `BaseNodeOutput` refinements the scheduler inspects: a generic output, a
router output (attribute per handle, possibly `None`) and
`HumanInterventionNodeOutput` (`blocked_nodes`, nullable `resume_time`). -/
inductive NodeOutput where
  | basic (tag : String)
  | router (fields : List (String × Option NodeOutput))
  | human (blocked_nodes : List String) (resume_time : Option String)

/-- Python exception kinds that can escape the embedded code. -/
inductive PyExc where
  | upstreamFailure
  | unconnectedNode
  | valueError
  | keyError
  | nodeFailure
  | stopIteration
  | pauseExc (node_id : String) (output : Option NodeOutput)

/-- Result of one node's execution coroutine: a returned value (possibly
`None`) or a raised exception. -/
abbrev ExecResult := Except PyExc (Option NodeOutput)

/-- The loaded executor: the (unhoisted) workflow plus `_node_dict` and
`_dependencies` as built by the constructor. -/
structure Executor where
  workflow : WorkflowDefinitionSchema
  node_dict : List (String × WorkflowNodeSchema)
  dependencies : List (String × List String)

/-- `_build_node_dict` (line 137): `{node.id: node for node in nodes}` —
first-occurrence key order, last-occurrence value on duplicate ids. -/
def buildNodeDict (nodes : List WorkflowNodeSchema) : List (String × WorkflowNodeSchema) :=
  nodes.foldl (fun acc node => aset acc node.id node) []

/-- The `for link in self.workflow.links` loop of `_build_dependencies`
(lines 142-143). -/
def depsFold (links : List Link) (acc : List (String × List String)) :
    Except PyExc (List (String × List String)) :=
  match links with
  | [] => .ok acc
  | link :: rest =>
      match acc.lookup link.target_id with
      | none => .error .keyError
      | some ds => depsFold rest (aset acc link.target_id (saddStr ds link.source_id))

/-- `_build_dependencies` (lines 140-144): `dependencies[link.target_id]`
raises `KeyError` when a link's `target_id` is not a node id; a dangling
`source_id` is added without any check. -/
def buildDependenciesE (nodes : List WorkflowNodeSchema) (links : List Link) :
    Except PyExc (List (String × List String)) :=
  depsFold links (nodes.foldl (fun acc node => aset acc node.id []) [])

/-- `__init__` (lines 39-71).  The first, guarded dependency pass
(lines 65-67) cannot raise and is overwritten by `_build_dependencies`,
so only the final node dict and dependency map are kept.  Note that
`_process_subworkflows` is *not* invoked anywhere in the constructor. -/
def initExecutor (workflow : WorkflowDefinitionSchema) : Except PyExc Executor := do
  let node_dict := buildNodeDict workflow.nodes
  let dependencies ← buildDependenciesE workflow.nodes workflow.links
  .ok { workflow := workflow, node_dict := node_dict, dependencies := dependencies }

/-- The `for link in self.workflow.links` loop of `_get_source_handles`. -/
def handleFold (ex : Executor) (links : List Link)
    (acc : List ((String × String) × String)) :
    Except PyExc (List ((String × String) × String)) :=
  match links with
  | [] => .ok acc
  | link :: rest =>
      match ex.node_dict.lookup link.source_id with
      | none => .error .keyError
      | some sourceNode =>
          if sourceNode.node_type == "RouterNode" then
            if strTruthy link.source_handle then
              match link.source_handle with
              | some h => handleFold ex rest (asetPair acc (link.source_id, link.target_id) h)
              | none => .error .valueError
            else .error .valueError
          else handleFold ex rest acc

/-- `_get_source_handles` (lines 146-157): map `(source_id, target_id) ↦
source_handle` for links whose source node is a `RouterNode`; raises
`KeyError` on a dangling `source_id` and `ValueError` on a falsy
`source_handle` of a router link. -/
def getSourceHandles (ex : Executor) :
    Except PyExc (List ((String × String) × String)) :=
  handleFold ex ex.workflow.links []

/-! ## Scheduler state, recorder events and the node-behaviour oracle. -/

/-- `TaskStatus` values used by the recorder. -/
inductive TaskStatus where
  | pending | running | completed | failed | paused | canceled
deriving DecidableEq, Repr

/-- Task-recorder events.  `end_time`, `inputs`, `outputs`, `subworkflow`
payloads carry no scheduler logic (wall-clock values and serialized copies)
and are elided; `error` keeps the literal `"Upstream failure"` string and a
`"traceback"` marker for `traceback.format_exc` content. -/
inductive Event where
  | createTask (node_id : String)
  | updateTask (node_id : String) (status : TaskStatus)
      (is_downstream_of_pause : Bool) (error : Option String)
deriving DecidableEq, Repr

/-- Call sites of `NodeFactory.create_node`: the schema-only instantiation in
the precomputed-output loop (run lines 415-419), the input-seeding
instantiation (run lines 448-452) and the per-node instantiation in
`_execute_node` (line 280). -/
inductive FPurpose where
  | schemaValidation | inputSeed | nodeInstance
deriving DecidableEq, Repr

/-- An entry of `_node_tasks`: a coroutine still awaited or a completed one
with its result.  Awaiting a `running` entry from inside its own dependency
chain dead-locks the Python event loop; the interpreter returns `none`. -/
inductive TaskState where
  | running
  | done (r : ExecResult)

/-- A node-input mapping (`Dict[str, Any]`): values may be `None` before the
`None`-filter at line 261. -/
abbrev Input := List (String × Option NodeOutput)

/-- Mutable scheduler state (`self._outputs`, `self._failed_nodes`,
`self._node_tasks`, `self._initial_inputs`), the recorder event log, the
log of factory calls and node invocations, and the run-record `PAUSED`
flag written on pause when an execution context with a db session is
present.  The task recorder is modelled as always present. -/
structure St where
  outputs : List (String × Option NodeOutput)
  failed_nodes : List String
  node_tasks : List (String × TaskState)
  events : List Event
  factoryCalls : List (FPurpose × String)
  invocations : List (String × Input)
  initial_inputs : List (String × Input)
  runRecordPaused : Bool

/-- The fresh state at the start of `run`. -/
def St.empty : St :=
  { outputs := [], failed_nodes := [], node_tasks := [], events := [],
    factoryCalls := [], invocations := [], initial_inputs := [],
    runRecordPaused := false }

/-- Result of `await node_instance(node_input)`: a value, a
`PauseException(node_id, output)`, or any other exception. -/
inductive NodeAction where
  | ok (output : Option NodeOutput)
  | pause (node_id : String) (output : Option NodeOutput)
  | fail

/-- Exceptions caught in the precomputed-output loop (run lines 425-432). -/
inductive PrecompErr where
  | validationError | attributeError

/-- Oracle for the externals: `call` is the behaviour of the node instance
produced by `NodeFactory.create_node(title, node_type, config)` applied to
an input mapping; `validate` is `output_model.model_validate` on a
precomputed payload (`attributeError` models a missing `output_model`). -/
structure Behavior where
  call : String → String → List (String × ConfigValue) → Input → NodeAction
  validate : String → String → List (String × ConfigValue) → Input →
      Except PrecompErr NodeOutput

/-- `getattr(output, source_handle, None)` (line 241): a route attribute of a
router output, `None` when the attribute is absent or the output is not a
router output. -/
def pyGetattr : Option NodeOutput → String → Option NodeOutput
  | some (.router fields), h => (fields.lookup h).join
  | _, _ => none

/-- The pause-gating test of lines 198-200 for one predecessor: the stored
output is a `HumanInterventionNodeOutput` with falsy `resume_time` that
lists this node in `blocked_nodes`. -/
def blocksNode (st : St) (dep id : String) : Bool :=
  match st.outputs.lookup dep with
  | some (some (.human blocked resume)) => resume.isNone && blocked.contains id
  | _ => false

def isErr : ExecResult → Bool
  | .error _ => true
  | .ok _ => false

/-- The value a completed dependency handle delivers (exceptions never reach
this point: the gather re-raises first). -/
def execValue : ExecResult → Option NodeOutput
  | .ok v => v
  | .error _ => none

def St.record (st : St) (e : Event) : St := { st with events := st.events ++ [e] }

def St.addFailed (st : St) (id : String) : St :=
  { st with failed_nodes := saddStr st.failed_nodes id }

/-- `except UpstreamFailure` handler (lines 350-361). -/
def upstreamHandler (id : String) (st : St) : ExecResult × St :=
  let st := st.addFailed id
  let st := { st with outputs := aset st.outputs id none }
  (.error .upstreamFailure,
    st.record (.updateTask id .canceled false (some "Upstream failure")))

/-- `except Exception` handler (lines 362-381). -/
def failureHandler (id : String) (e : PyExc) (st : St) : ExecResult × St :=
  let st := st.addFailed id
  (.error e, st.record (.updateTask id .failed false (some "traceback")))

/-- Outcome of the input-assembly loop (lines 231-254). -/
inductive AsmErr where
  | cancelRoute | missingHandle | missingPredNode

/-- Input assembly (lines 231-254): walk `zip(dependency_ids,
predecessor_outputs)`; a router predecessor contributes its route attribute
(cancel when the route is `None`, `ValueError` when no handle is mapped),
any other predecessor contributes its output as-is. -/
def assembleInput (ex : Executor) (handles : List ((String × String) × String))
    (id : String) : List String → List (Option NodeOutput) → Except AsmErr Input
  | dep :: deps, out :: outs =>
      match ex.node_dict.lookup dep with
      | none => .error .missingPredNode
      | some pred =>
          if pred.node_type == "RouterNode" then
            match handles.lookup (dep, id) with
            | none => .error .missingHandle
            | some h =>
                match pyGetattr out h with
                | some routeOut =>
                    (fun rest => (dep, some routeOut) :: rest) <$>
                      assembleInput ex handles id deps outs
                | none => .error .cancelRoute
          else
            (fun rest => (dep, out) :: rest) <$> assembleInput ex handles id deps outs
  | _, _ => .ok []

/-- Sequential model of `asyncio.gather` over dependency execution handles:
run each handle in order, threading state; `f` is the (memoised) task
lookup. -/
def gatherWith (f : String → St → Option (ExecResult × St)) :
    List String → St → Option (List ExecResult × St)
  | [], st => some ([], st)
  | d :: ds, st => do
      let (r, st₁) ← f d st
      let (rs, st₂) ← gatherWith f ds st₁
      pure (r :: rs, st₂)

/-- `_execute_node` (lines 173-381), parameterised by the task lookup `f`
used to await dependencies.  Returns `none` when the Python code would
dead-lock (cyclic await). -/
def execNode (ex : Executor) (beh : Behavior) (hasCtx : Bool)
    (f : String → St → Option (ExecResult × St)) (id : String) (st : St) :
    Option (ExecResult × St) :=
  -- line 174 (outside the try block): `node = self._node_dict[node_id]`
  match ex.node_dict.lookup id with
  | none => some (.error .keyError, st)
  | some node =>
    -- line 177: memoised output short-circuit
    match st.outputs.lookup id with
    | some v => some (.ok v, st)
    | none =>
      let deps := (ex.dependencies.lookup id).getD []
      -- lines 185-194: await all dependencies; any exception → UpstreamFailure
      match gatherWith f deps st with
      | none => none
      | some (results, st) =>
        if results.any isErr then some (upstreamHandler id st)
        else
          let predOutputs := results.map execValue
          -- lines 196-208: pause gating on stored predecessor outputs
          if deps.any (fun dep => blocksNode st dep id) then
            some (.ok none, st.record (.updateTask id .pending true none))
          -- lines 210-213: failed-predecessor gating
          else if deps.any (fun dep => st.failed_nodes.contains dep) then
            some (upstreamHandler id (st.addFailed id))
          -- lines 215-225: null gating for non-coalesce nodes
          else if node.node_type != "CoalesceNode" && predOutputs.any Option.isNone then
            let st := { st with outputs := aset st.outputs id none }
            some (.ok none, st.record (.updateTask id .canceled false none))
          else
            -- line 228: build the router handle map (validates every link)
            match getSourceHandles ex with
            | .error e => some (failureHandler id e st)
            | .ok handles =>
              match assembleInput ex handles id deps predOutputs with
              -- lines 244-252: a router route is None → cancel
              | .error .cancelRoute =>
                  let st := { st with outputs := aset st.outputs id none }
                  some (.ok none, st.record (.updateTask id .canceled false none))
              -- lines 236-239: missing handle → ValueError → generic handler
              | .error .missingHandle => some (failureHandler id .valueError st)
              -- line 232: dangling predecessor id → KeyError → generic handler
              | .error .missingPredNode => some (failureHandler id .keyError st)
              | .ok rawInput =>
                  -- lines 256-258: InputNode uses the initial inputs instead
                  let rawInput :=
                    if node.node_type == "InputNode" then
                      (st.initial_inputs.lookup id).getD []
                    else rawInput
                  -- line 261: drop None values
                  let filtered := rawInput.filterMap
                    (fun e => e.2.map (fun v => (e.1, v)))
                  -- lines 264-273: record RUNNING with inputs
                  let st := st.record (.updateTask id .running false none)
                  -- lines 276-278: empty input → UnconnectedNode → generic handler
                  if filtered.isEmpty then
                    let st := { st with outputs := aset st.outputs id none }
                    some (failureHandler id .unconnectedNode st)
                  else
                    -- lines 280-285: instantiate via the node factory
                    let st := { st with
                      factoryCalls := st.factoryCalls ++ [(FPurpose.nodeInstance, id)] }
                    -- lines 288-296: context injection (no scheduler-visible state)
                    -- lines 299-304: record RUNNING with subworkflow
                    let st := st.record (.updateTask id .running false none)
                    -- line 308: invoke the node instance
                    let callInput : Input := filtered.map (fun e => (e.1, some e.2))
                    let st := { st with invocations := st.invocations ++ [(id, callInput)] }
                    match beh.call node.title node.node_type node.config callInput with
                    | .ok out =>
                        -- lines 310-324: record COMPLETED, store output
                        let st := st.record (.updateTask id .completed false none)
                        some (.ok out, { st with outputs := aset st.outputs id out })
                    | .pause _pnid pout =>
                        -- lines 325-348: PauseException is caught here: store the
                        -- output, record PAUSED, set the run record PAUSED, and
                        -- return the output *normally*
                        let st := { st with outputs := aset st.outputs id pout }
                        let st := st.record (.updateTask id .paused false none)
                        let st := if hasCtx then { st with runRecordPaused := true } else st
                        some (.ok pout, st)
                    | .fail => some (failureHandler id .nodeFailure st)

/-- `_get_async_task_for_node_execution` (lines 159-171) combined with
running the coroutine to completion: at most one execution handle per node
id; a fresh handle runs `_execute_node` and caches its result.  The fuel
bounds the recursion depth (a cyclic graph dead-locks: `none`). -/
def getTaskF (ex : Executor) (beh : Behavior) (hasCtx : Bool) :
    Nat → String → St → Option (ExecResult × St)
  | 0, _, _ => none
  | n + 1, id, st =>
    match st.node_tasks.lookup id with
    | some (.done r) => some (r, st)
    | some .running => none
    | none =>
        let st₁ := { st with
          node_tasks := st.node_tasks ++ [(id, TaskState.running)],
          events := st.events ++ [Event.createTask id] }
        match execNode ex beh hasCtx (fun d s => getTaskF ex beh hasCtx n d s) id st₁ with
        | none => none
        | some (r, st₂) =>
            some (r, { st₂ with node_tasks := aset st₂.node_tasks id (.done r) })

/-! ## The driver: `run` (lines 404-520). -/

/-- A value of the `precomputed_outputs` mapping: a dict payload or a list
payload (loop-node outputs, skipped by `continue` at line 423). -/
inductive Precomp where
  | dictP (payload : Input)
  | listP

/-- The precomputed-output loop (lines 410-436): for each dict entry look the
node up (`KeyError` → warn and skip), instantiate it via the factory for
schema validation only, validate the payload (`ValidationError` /
`AttributeError` → warn and skip) and store the validated output. -/
def precompStep (ex : Executor) (beh : Behavior) (st : St)
    (entry : String × Precomp) : St :=
  match entry.2 with
  | .listP => st
  | .dictP payload =>
      match ex.node_dict.lookup entry.1 with
      | none => st
      | some node =>
          let st := { st with
            factoryCalls := st.factoryCalls ++ [(FPurpose.schemaValidation, entry.1)] }
          match beh.validate node.title node.node_type node.config payload with
          | .ok v => { st with outputs := aset st.outputs entry.1 (some v) }
          | .error _ => st

def precompPhase (ex : Executor) (beh : Behavior)
    (precomputed : List (String × Precomp)) (st : St) : St :=
  precomputed.foldl (precompStep ex beh) st

/-- The downstream-of-paused walk in the driver sweep (lines 489-498): follow
`next(iter(deps))` chains from `start`; `true` when `pausedId` shows up in
some visited node's dependency set.  The `while` loop can run forever on a
cyclic graph, hence the fuel. -/
def downstreamWalk (dependencies : List (String × List String))
    (pausedId : String) : Nat → String → Option Bool
  | 0, _ => none
  | n + 1, current =>
      match dependencies.lookup current with
      | none => some false
      | some ds =>
          if ds.contains pausedId then some true
          else
            match ds with
            | [] => some false
            | d :: _ => downstreamWalk dependencies pausedId n d

/-- Whether an exception value is a `PauseException`
(`isinstance(result, PauseException)`, line 478). -/
def isPauseExc : PyExc → Bool
  | .pauseExc _ _ => true
  | _ => false

/-- `PauseException.node_id` (read at line 480). -/
def pauseNodeId : PyExc → String
  | .pauseExc nid _ => nid
  | _ => ""

/-- The result-processing sweep (lines 476-511): remember the node id of
every `PauseException` result (last write wins), and for every other
exception either downgrade to `PENDING`/`is_downstream_of_pause` (when a
pause was already seen and the walk finds the paused node) or mark the
node failed with a null output. -/
def sweep (dependencies : List (String × List String)) (fuel : Nat) :
    List (String × TaskState) → Option String → St → Option (Option String × St)
  | [], paused, st => some (paused, st)
  | (id, ts) :: rest, paused, st =>
      match ts with
      | .running => sweep dependencies fuel rest paused st
      | .done (.ok _) => sweep dependencies fuel rest paused st
      | .done (.error e) =>
          if isPauseExc e then
            sweep dependencies fuel rest (some (pauseNodeId e)) st
          else
            match paused with
            | some p => do
                let isDown ← downstreamWalk dependencies p fuel id
                if isDown then
                  sweep dependencies fuel rest paused
                    (st.record (.updateTask id .pending true none))
                else
                  sweep dependencies fuel rest paused
                    ({ (st.addFailed id) with
                        outputs := aset (st.addFailed id).outputs id none })
            | none =>
                sweep dependencies fuel rest paused
                  ({ (st.addFailed id) with
                      outputs := aset (st.addFailed id).outputs id none })

/-- After the sweep, re-raise the remembered pause (lines 513-517): the first
task result that is a `PauseException` with the remembered node id. -/
def findPauseResult (tasks : List (String × TaskState)) (pausedId : String) :
    Option PyExc :=
  tasks.findSome?
    (fun e =>
      match e.2 with
      | .done (.error (.pauseExc pnid pout)) =>
          if pnid == pausedId then some (PyExc.pauseExc pnid pout) else none
      | _ => none)

/-- Run the execution handles for every id in order (lines 469-470 plus the
gather at line 473; in the sequential model each handle runs to
completion when created). -/
def runTasks (ex : Executor) (beh : Behavior) (hasCtx : Bool) (fuel : Nat) :
    List String → St → Option St
  | [], st => some st
  | id :: rest, st => do
      let (_, st₁) ← getTaskF ex beh hasCtx fuel id st
      runTasks ex beh hasCtx fuel rest st₁

/-- What `run` hands back to its caller: the non-null outputs mapping, or a
raised exception. -/
abbrev RunRes := Except PyExc (List (String × NodeOutput))

/-- `run` (lines 404-520).  `none` models a hang (cyclic graph or exhausted
fuel). -/
def runModel (ex : Executor) (beh : Behavior) (hasCtx : Bool) (fuel : Nat)
    (input : Input) (node_ids : List String)
    (precomputed : List (String × Precomp)) : Option (RunRes × St) :=
  let st := precompPhase ex beh precomputed St.empty
  -- lines 438-445: unguarded next() over top-level InputNodes
  match ex.workflow.nodes.find?
      (fun node => node.node_type == "InputNode" && !strTruthy node.parent_id) with
  | none => some (.error .stopIteration, st)
  | some inputNode =>
      -- line 446: seed the initial inputs
      let st := { st with initial_inputs := aset st.initial_inputs inputNode.id input }
      -- lines 448-453: instantiate the input node and invoke it directly
      let st := { st with
        factoryCalls := st.factoryCalls ++ [(FPurpose.inputSeed, inputNode.id)],
        invocations := st.invocations ++ [(inputNode.id, input)] }
      match beh.call inputNode.title inputNode.node_type inputNode.config input with
      | .pause pnid pout => some (.error (.pauseExc pnid pout), st)
      | .fail => some (.error .nodeFailure, st)
      | .ok seedOut =>
          let st := { st with outputs := aset st.outputs inputNode.id seedOut }
          -- lines 455-462: nodes_to_run = all node-dict keys, or node_ids;
          -- minus ids of nodes with truthy parent_id
          let base :=
            if node_ids.isEmpty then ex.node_dict.map Prod.fst
            else dedupFirst node_ids
          let nodesToRun := base.filter
            (fun id =>
              ! ex.workflow.nodes.any
                (fun node => node.id == id && strTruthy node.parent_id))
          -- lines 464-466: drop outputs for nodes that are about to run
          let st := { st with outputs := nodesToRun.foldl apop st.outputs }
          -- lines 468-473: start all handles and await them
          match runTasks ex beh hasCtx fuel nodesToRun st with
          | none => none
          | some st =>
              -- lines 476-511: process results
              match sweep ex.dependencies fuel st.node_tasks none st with
              | none => none
              | some (pausedId, st) =>
                  -- lines 513-517: re-raise the pause if one was recorded
                  match pausedId with
                  | some p =>
                      match findPauseResult st.node_tasks p with
                      | some exc => some (.error exc, st)
                      | none =>
                          some (.ok (st.outputs.filterMap
                            (fun e => e.2.map (fun v => (e.1, v)))), st)
                  | none =>
                      -- line 520: the non-None outputs
                      some (.ok (st.outputs.filterMap
                        (fun e => e.2.map (fun v => (e.1, v)))), st)

/-! ## Output serializer: `_serialize_output` (lines 383-402). -/

/-- Python values as they appear in `output.model_dump()` payloads. -/
inductive PyVal where
  | pdatetime (iso : String)
  | pset (elems : List PyVal)
  | pdict (entries : List (PyVal × PyVal))
  | plist (elems : List PyVal)
  | pstr (s : String)
  | pint (n : Int)
  | pnone

/-- `str(key)` for dict keys.  Only the string/int/None renderings matter to
the development; the remaining clauses abstract Python's `str`. -/
def pyStrKey : PyVal → String
  | .pstr s => s
  | .pint n => toString n
  | .pnone => "None"
  | .pdatetime iso => iso
  | .pset _ => "<set>"
  | .pdict _ => "<dict>"
  | .plist _ => "<list>"

/-- `_serialize_value` (lines 390-400): datetimes become their `isoformat`
string; a set becomes `list(val)` — its *elements are not recursed into*;
dict entries are walked with stringified keys; list elements are walked;
everything else passes through. -/
def serializeValue : PyVal → PyVal
  | .pdatetime iso => .pstr iso
  | .pset elems => .plist elems
  | .pdict entries =>
      .pdict (entries.attach.map
        (fun e => (PyVal.pstr (pyStrKey e.1.1), serializeValue e.1.2)))
  | .plist elems => .plist (elems.attach.map (fun e => serializeValue e.1))
  | .pstr s => .pstr s
  | .pint n => .pint n
  | .pnone => .pnone
decreasing_by
  · have h1 := List.sizeOf_lt_of_mem e.2
    obtain ⟨⟨k, v⟩, hm⟩ := e
    simp only [Prod.mk.sizeOf_spec] at h1
    simp only [PyVal.pdict.sizeOf_spec]
    omega
  · have h1 := List.sizeOf_lt_of_mem e.2
    obtain ⟨v, hm⟩ := e
    simp only [PyVal.plist.sizeOf_spec]
    simp at h1
    omega

/-- `_serialize_output` applied to a `model_dump` payload (line 402):
stringify the top-level keys and serialize each value (`None` output →
`None`, line 385). -/
def serializeOutput (output : Option (List (String × PyVal))) :
    Option (List (String × PyVal)) :=
  output.map (fun data => data.map (fun e => (e.1, serializeValue e.2)))

/-! ## Concrete workflows used to settle the claims. -/

/-- A node with empty config, title equal to its id, and no parent. -/
def mkNode (id ty : String) : WorkflowNodeSchema := .mk id id ty [] none

/-- A node with a parent id. -/
def mkNodeP (id ty : String) (p : Option String) : WorkflowNodeSchema :=
  .mk id id ty [] p

def mkLink (s t : String) : Link := { source_id := s, target_id := t }

def mkLinkH (s t h : String) : Link :=
  { source_id := s, target_id := t, source_handle := some h }

/-- Extract the executor from a successful construction (the accompanying
theorems state `initExecutor` success explicitly where it matters). -/
def exOf (wf : WorkflowDefinitionSchema) : Executor :=
  match initExecutor wf with
  | .ok e => e
  | .error _ => { workflow := wf, node_dict := [], dependencies := [] }

/-- Number of `create_task` recorder calls for a node id. -/
def createCount (events : List Event) (id : String) : Nat :=
  events.countP (fun e => match e with | .createTask i => i == id | _ => false)

/-- Number of `update_task(id, FAILED, …)` recorder calls for a node id. -/
def failedCount (events : List Event) (id : String) : Nat :=
  events.countP
    (fun e => match e with
      | .updateTask i s _ _ => i == id && s == TaskStatus.failed
      | _ => false)

/-- Number of `_execute_node`-side factory instantiations of a node id. -/
def instCount (fc : List (FPurpose × String)) (id : String) : Nat :=
  fc.countP (fun e => e.1 == FPurpose.nodeInstance && e.2 == id)

/-- Number of factory instantiations of a node id excluding the schema-only
ones performed for precomputed-output validation. -/
def nonSchemaCount (fc : List (FPurpose × String)) (id : String) : Nat :=
  fc.countP (fun e => !(e.1 == FPurpose.schemaValidation) && e.2 == id)

/-- A linear workflow `I → B → O` with a top-level `InputNode`. -/
def wfLinear : WorkflowDefinitionSchema :=
  .mk [mkNode "I" "InputNode", mkNode "B" "TaskNode", mkNode "O" "TaskNode"]
    [mkLink "I" "B", mkLink "B" "O"]

/-- Nodes of `wfLinear` succeed with basic outputs. -/
def behLinear : Behavior :=
  { call := fun title _ _ _ =>
      match title with
      | "I" => .ok (some (.basic "iv"))
      | "B" => .ok (some (.basic "bv"))
      | "O" => .ok (some (.basic "ov"))
      | _ => .fail,
    validate := fun _ _ _ _ => .error .validationError }

/-- The default seed input used by the example runs. -/
def exInput : Input := [("q", some (.basic "qq"))]

/-- `I → H → D` with an unrelated failing sibling `I → S`; `H` is a
human-intervention node. -/
def wfPause : WorkflowDefinitionSchema :=
  .mk [mkNode "I" "InputNode", mkNode "H" "HumanInterventionNode",
      mkNode "D" "TaskNode", mkNode "S" "TaskNode"]
    [mkLink "I" "H", mkLink "H" "D", mkLink "I" "S"]

/-- `H` raises `PauseException` blocking `D`; `S` raises an ordinary
exception. -/
def behPause : Behavior :=
  { call := fun title _ _ _ =>
      match title with
      | "I" => .ok (some (.basic "iv"))
      | "H" => .pause "H" (some (.human ["D"] none))
      | "D" => .ok (some (.basic "dv"))
      | _ => .fail,
    validate := fun _ _ _ _ => .error .validationError }

/-- A chain `I → H → M → N` where the paused `H` blocks both `M` and `N`;
`H` is an ancestor (but not a direct predecessor) of `N`. -/
def wfChain : WorkflowDefinitionSchema :=
  .mk [mkNode "I" "InputNode", mkNode "H" "HumanInterventionNode",
      mkNode "M" "TaskNode", mkNode "N" "TaskNode"]
    [mkLink "I" "H", mkLink "H" "M", mkLink "M" "N"]

def behChain : Behavior :=
  { call := fun title _ _ _ =>
      match title with
      | "I" => .ok (some (.basic "iv"))
      | "H" => .pause "H" (some (.human ["M", "N"] none))
      | _ => .ok (some (.basic "v")),
    validate := fun _ _ _ _ => .error .validationError }

/-- `N` has a null predecessor `X` (dead router branch) *and* is blocked by
the paused human-intervention predecessor `H`. -/
def wfNullAndPause : WorkflowDefinitionSchema :=
  .mk [mkNode "I" "InputNode", mkNode "R" "RouterNode", mkNode "X" "TaskNode",
      mkNode "H" "HumanInterventionNode", mkNode "N" "TaskNode"]
    [mkLink "I" "R", mkLinkH "R" "X" "a", mkLink "I" "H",
      mkLink "X" "N", mkLink "H" "N"]

def behNullAndPause : Behavior :=
  { call := fun title _ _ _ =>
      match title with
      | "I" => .ok (some (.basic "iv"))
      | "R" => .ok (some (.router [("a", none)]))
      | "H" => .pause "H" (some (.human ["N"] none))
      | _ => .ok (some (.basic "v")),
    validate := fun _ _ _ _ => .error .validationError }

/-- Router `R` selects handle `"a"` feeding consumer `C`; handle `"b"` is
unselected and feeds `X`; `X` also feeds `C`. -/
def wfRouterTwo : WorkflowDefinitionSchema :=
  .mk [mkNode "I" "InputNode", mkNode "R" "RouterNode", mkNode "X" "TaskNode",
      mkNode "C" "TaskNode"]
    [mkLink "I" "R", mkLinkH "R" "C" "a", mkLinkH "R" "X" "b", mkLink "X" "C"]

/-- Same shape with `C` a `CoalesceNode`. -/
def wfRouterCoalesce : WorkflowDefinitionSchema :=
  .mk [mkNode "I" "InputNode", mkNode "R" "RouterNode", mkNode "X" "TaskNode",
      mkNode "C" "CoalesceNode"]
    [mkLink "I" "R", mkLinkH "R" "C" "a", mkLinkH "R" "X" "b", mkLink "X" "C"]

def behRouter : Behavior :=
  { call := fun title _ _ _ =>
      match title with
      | "I" => .ok (some (.basic "iv"))
      | "R" => .ok (some (.router [("a", some (.basic "av")), ("b", none)]))
      | _ => .ok (some (.basic "v")),
    validate := fun _ _ _ _ => .error .validationError }

/-- `behLinear` plus a validator that accepts precomputed payloads for `B`. -/
def behPre : Behavior :=
  { call := behLinear.call,
    validate := fun title _ _ _ =>
      match title with
      | "B" => .ok (.basic "preB")
      | _ => .error .validationError }

/-- A precomputed dict payload for node `B`. -/
def preB : List (String × Precomp) := [("B", .dictP [("resp", some (.basic "pv"))])]

/-- A parent node `P` with children `A`, `B` and one intra-child link. -/
def wfParent : WorkflowDefinitionSchema :=
  .mk [mkNode "I" "InputNode", mkNode "P" "TaskNode",
      mkNodeP "A" "TaskNode" (some "P"), mkNodeP "B" "TaskNode" (some "P")]
    [mkLink "I" "P", mkLink "A" "B"]

/-- A workflow whose only link has a dangling `source_id`. -/
def wfBadSource : WorkflowDefinitionSchema :=
  .mk [mkNode "I" "InputNode", mkNode "T" "TaskNode"]
    [mkLink "ghost" "T"]

/-- A workflow with a router link that has no `source_handle`. -/
def wfNoHandle : WorkflowDefinitionSchema :=
  .mk [mkNode "I" "InputNode", mkNode "R" "RouterNode", mkNode "T" "TaskNode"]
    [mkLink "I" "R", mkLink "R" "T"]

/-- A workflow whose only link has a dangling `target_id`. -/
def wfBadTarget : WorkflowDefinitionSchema :=
  .mk [mkNode "I" "InputNode", mkNode "T" "TaskNode"]
    [mkLink "I" "ghost"]

/-- A workflow with no `InputNode` at all. -/
def wfNoInput : WorkflowDefinitionSchema :=
  .mk [mkNode "T" "TaskNode"] []

/-- A workflow whose only `InputNode` has the empty string as `parent_id`
(non-null but falsy). -/
def wfEmptyParentInput : WorkflowDefinitionSchema :=
  .mk [mkNodeP "I" "InputNode" (some "")] []

def behInputOnly : Behavior :=
  { call := fun title _ _ _ =>
      match title with
      | "I" => .ok (some (.basic "iv"))
      | _ => .fail,
    validate := fun _ _ _ _ => .error .validationError }

/-- On `wfPause`'s shape but with no pause anywhere: `H` succeeds and `S`
raises an ordinary exception. -/
def behPauseFree : Behavior :=
  { call := fun title _ _ _ =>
      match title with
      | "I" => .ok (some (.basic "iv"))
      | "H" => .ok (some (.basic "hv"))
      | "D" => .ok (some (.basic "dv"))
      | _ => .fail,
    validate := fun _ _ _ _ => .error .validationError }

/-- Whether the constructor succeeds. -/
def initOk (wf : WorkflowDefinitionSchema) : Bool :=
  match initExecutor wf with
  | .ok _ => true
  | .error _ => false

/-- Whether `run` returned normally (as opposed to raising). -/
def runResOk (r : RunRes) : Bool :=
  match r with
  | .ok _ => true
  | .error _ => false

/-- Whether `run` raised a `PauseException` to its caller. -/
def raisesPause (r : RunRes) : Bool :=
  match r with
  | .error (.pauseExc _ _) => true
  | _ => false

/-- No entry of the task map completed by raising a `PauseException`. -/
def tasksPauseFree (st : St) : Bool :=
  st.node_tasks.all
    (fun e =>
      match e.2 with
      | TaskState.done (Except.error (PyExc.pauseExc _ _)) => false
      | _ => true)

/-- A link's `target_id` does not resolve among the workflow's nodes. -/
def linkTargetMissing (wf : WorkflowDefinitionSchema) (link : Link) : Bool :=
  ! wf.nodes.any (fun n => n.id == link.target_id)

/-- A link that `_get_source_handles` rejects: dangling `source_id`, or a
router source with a falsy `source_handle`. -/
def linkSourceBad (ex : Executor) (link : Link) : Bool :=
  match ex.node_dict.lookup link.source_id with
  | none => true
  | some n => n.node_type == "RouterNode" && !strTruthy link.source_handle

/-- The results of a list of already-completed execution handles, as
`asyncio.gather` would deliver them. -/
def doneResults (st : St) : List String → Option (List ExecResult)
  | [] => some []
  | d :: ds =>
      match st.node_tasks.lookup d with
      | some (.done r) => (doneResults st ds).map (fun rs => r :: rs)
      | _ => none

/-- A hand-built scheduler state for `wfNullAndPause` at the moment node
`N` is about to run: `I`, `R`, `X` and `H` have completed, `X` delivered
null (dead router branch) and `H` delivered a pause output blocking `N`. -/
def wit5st : St :=
  { St.empty with
    outputs := [("I", some (.basic "iv")), ("R", some (.router [("a", none)])),
      ("X", none), ("H", some (.human ["N"] none))],
    node_tasks := [("I", .done (.ok (some (.basic "iv")))),
      ("R", .done (.ok (some (.router [("a", none)])))),
      ("X", .done (.ok none)),
      ("H", .done (.ok (some (.human ["N"] none))))] }

/-- Router `R` selects handle `"a"` feeding consumer `C`, whose only
dependency is `R`; the unselected handle `"b"` feeds `X`. -/
def wfRouterGood : WorkflowDefinitionSchema :=
  .mk [mkNode "I" "InputNode", mkNode "R" "RouterNode", mkNode "C" "TaskNode",
      mkNode "X" "TaskNode"]
    [mkLink "I" "R", mkLinkH "R" "C" "a", mkLinkH "R" "X" "b"]

/-- A hand-built scheduler state for `wfRouterTwo` at the moment consumer
`C` is about to run: `I`, `R`, `X` have completed and `X` delivered null
(its router branch was not selected). -/
def wit3st : St :=
  { St.empty with
    outputs := [("I", some (.basic "iv")),
      ("R", some (.router [("a", some (.basic "av")), ("b", none)])),
      ("X", none)],
    node_tasks := [("I", .done (.ok (some (.basic "iv")))),
      ("R", .done (.ok (some (.router [("a", some (.basic "av")), ("b", none)])))),
      ("X", .done (.ok none))] }

/-- Like `wit3st` but with `X` non-null, so only the router route content
decides consumer `C`'s fate. -/
def wit4st : St :=
  { St.empty with
    outputs := [("I", some (.basic "iv")),
      ("R", some (.router [("a", some (.basic "av")), ("b", none)])),
      ("X", some (.basic "xv"))],
    node_tasks := [("I", .done (.ok (some (.basic "iv")))),
      ("R", .done (.ok (some (.router [("a", some (.basic "av")), ("b", none)])))),
      ("X", .done (.ok (some (.basic "xv"))))] }

/-! ## Association-list and counting toolkit. -/

theorem lookup_aset {α : Type} (l : List (String × α)) (k : String) (v : α)
    (k' : String) :
    (aset l k v).lookup k' = if k' == k then some v else l.lookup k' := by
  induction l with
  | nil => cases hb : (k' == k) <;> simp [aset, List.lookup, hb]
  | cons hd tl ih =>
      obtain ⟨hk, hv⟩ := hd
      cases hc : (hk == k) with
      | true =>
          have hkeq : hk = k := by simpa using hc
          subst hkeq
          cases hb : (k' == hk) <;> simp [aset, hc, List.lookup, hb]
      | false =>
          have hne : hk ≠ k := by simpa using hc
          cases hb : (k' == hk) with
          | true =>
              have hkeq : k' = hk := by simpa using hb
              subst hkeq
              have hbk : (k' == k) = false := by simpa using hne
              simp [aset, hc, List.lookup, hb, hbk]
          | false => simp [aset, hc, List.lookup, hb, ih]

theorem lookup_append_some {α : Type} {l : List (String × α)} {k : String}
    {v : α} (m : List (String × α)) (h : l.lookup k = some v) :
    (l ++ m).lookup k = some v := by
  induction l with
  | nil => simp [List.lookup] at h
  | cons hd tl ih =>
      obtain ⟨hk, hv⟩ := hd
      cases hb : (k == hk) with
      | true =>
          simp [List.lookup, hb] at h
          simp [List.lookup, hb, h]
      | false =>
          simp [List.lookup, hb] at h
          simpa [List.lookup, hb] using ih h

theorem lookup_append_none {α : Type} {l : List (String × α)} {k : String}
    (m : List (String × α)) (h : l.lookup k = none) :
    (l ++ m).lookup k = m.lookup k := by
  induction l with
  | nil => simp
  | cons hd tl ih =>
      obtain ⟨hk, hv⟩ := hd
      cases hb : (k == hk) with
      | true => simp [List.lookup, hb] at h
      | false =>
          simp only [List.lookup, hb] at h
          simpa [List.lookup, hb] using ih h

theorem createCount_update (evs : List Event) (id j : String) (s : TaskStatus)
    (fl : Bool) (er : Option String) :
    createCount (evs ++ [.updateTask j s fl er]) id = createCount evs id := by
  simp [createCount, List.countP_append, List.countP_cons]

theorem createCount_create (evs : List Event) (id j : String) :
    createCount (evs ++ [.createTask j]) id =
      createCount evs id + (if j == id then 1 else 0) := by
  cases h : (j == id) <;>
    simp [createCount, List.countP_append, List.countP_cons, h]

theorem failedCount_update (evs : List Event) (id j : String) (s : TaskStatus)
    (fl : Bool) (er : Option String) :
    failedCount (evs ++ [.updateTask j s fl er]) id =
      failedCount evs id + (if j == id && s == TaskStatus.failed then 1 else 0) := by
  cases h : (j == id && s == TaskStatus.failed) <;>
    simp [failedCount, List.countP_append, List.countP_cons, h]

theorem failedCount_create (evs : List Event) (id j : String) :
    failedCount (evs ++ [.createTask j]) id = failedCount evs id := by
  simp [failedCount, List.countP_append, List.countP_cons]

theorem instCount_append (fc : List (FPurpose × String)) (id : String)
    (p : FPurpose) (j : String) :
    instCount (fc ++ [(p, j)]) id =
      instCount fc id + (if p == FPurpose.nodeInstance && j == id then 1 else 0) := by
  cases h : (p == FPurpose.nodeInstance && j == id) <;>
    simp [instCount, List.countP_append, List.countP_cons, h]

/-! ## Properties of the precomputed-output phase. -/

theorem precompStep_sig (ex : Executor) (beh : Behavior) (st : St)
    (entry : String × Precomp) :
    (precompStep ex beh st entry).node_tasks = st.node_tasks ∧
    (precompStep ex beh st entry).invocations = st.invocations ∧
    (precompStep ex beh st entry).events = st.events ∧
    ∀ id, instCount (precompStep ex beh st entry).factoryCalls id =
      instCount st.factoryCalls id := by
  unfold precompStep
  cases entry.2 with
  | listP => simp
  | dictP payload =>
      cases hl : ex.node_dict.lookup entry.1 with
      | none => simp [hl]
      | some node =>
          cases hv : beh.validate node.title node.node_type node.config payload with
          | ok v => simp [hl, hv, instCount_append]
          | error e => simp [hl, hv, instCount_append]

theorem precompPhase_sig (ex : Executor) (beh : Behavior)
    (pre : List (String × Precomp)) (st : St) :
    (precompPhase ex beh pre st).node_tasks = st.node_tasks ∧
    (precompPhase ex beh pre st).invocations = st.invocations ∧
    (precompPhase ex beh pre st).events = st.events ∧
    ∀ id, instCount (precompPhase ex beh pre st).factoryCalls id =
      instCount st.factoryCalls id := by
  induction pre generalizing st with
  | nil => simp [precompPhase]
  | cons e rest ih =>
      have hstep := precompStep_sig ex beh st e
      have hrest := ih (precompStep ex beh st e)
      simp only [precompPhase, List.foldl_cons] at *
      refine ⟨?_, ?_, ?_, ?_⟩
      · rw [hrest.1, hstep.1]
      · rw [hrest.2.1, hstep.2.1]
      · rw [hrest.2.2.1, hstep.2.2.1]
      · intro id
        rw [hrest.2.2.2 id, hstep.2.2.2 id]

/-! ## Characterising the constructor and handle-map failures (C8). -/

theorem lookup_depsBase (nodes : List WorkflowNodeSchema)
    (acc : List (String × List String)) (k : String) :
    ((nodes.foldl (fun acc node => aset acc node.id ([] : List String)) acc).lookup k).isSome
      = ((acc.lookup k).isSome || nodes.any (fun n => n.id == k)) := by
  induction nodes generalizing acc with
  | nil => simp
  | cons n rest ih =>
      simp only [List.foldl_cons, List.any_cons]
      rw [ih]
      cases h : (k == n.id) with
      | true =>
          have hk : k = n.id := by simpa using h
          subst hk
          simp [lookup_aset]
      | false =>
          have hne : k ≠ n.id := by simpa using h
          have h2 : (n.id == k) = false := by
            simpa using (Ne.symm hne)
          simp [lookup_aset, h, h2]

theorem depsFold_error_iff (nodes : List WorkflowNodeSchema) (links : List Link)
    (acc : List (String × List String))
    (hacc : ∀ k, ((acc.lookup k).isSome) = nodes.any (fun n => n.id == k)) :
    ((∃ e, depsFold links acc = .error e)
      ↔ links.any (fun l => linkTargetMissing (.mk nodes []) l)) := by
  induction links generalizing acc with
  | nil => simp [depsFold]
  | cons l rest ih =>
      simp only [List.any_cons]
      cases hl : acc.lookup l.target_id with
      | none =>
          have hmiss : nodes.any (fun n => n.id == l.target_id) = false := by
            have := hacc l.target_id
            rw [hl] at this
            simpa using this.symm
          simp [depsFold, hl, linkTargetMissing, WorkflowDefinitionSchema.nodes, hmiss]
      | some ds =>
          have hmem : nodes.any (fun n => n.id == l.target_id) = true := by
            have := hacc l.target_id
            rw [hl] at this
            simpa using this.symm
          have hacc' : ∀ k,
              (((aset acc l.target_id (saddStr ds l.source_id)).lookup k).isSome)
                = nodes.any (fun n => n.id == k) := by
            intro k
            rw [lookup_aset]
            cases hk : (k == l.target_id) with
            | true =>
                have hke : k = l.target_id := by simpa using hk
                subst hke
                simp [hmem]
            | false => simp [hacc k]
          simp only [depsFold, hl]
          rw [ih _ hacc']
          simp [linkTargetMissing, WorkflowDefinitionSchema.nodes, hmem]

theorem buildDependenciesE_error_iff (wf : WorkflowDefinitionSchema) :
    ((∃ e, buildDependenciesE wf.nodes wf.links = .error e)
      ↔ wf.links.any (linkTargetMissing wf)) := by
  have hbase : ∀ k,
      (((wf.nodes.foldl (fun acc node => aset acc node.id ([] : List String)) []).lookup k).isSome)
        = wf.nodes.any (fun n => n.id == k) := by
    intro k
    rw [lookup_depsBase]
    simp
  have h := depsFold_error_iff wf.nodes wf.links _ hbase
  have hwf : linkTargetMissing (WorkflowDefinitionSchema.mk wf.nodes []) =
      linkTargetMissing wf := by
    funext l
    simp [linkTargetMissing, WorkflowDefinitionSchema.nodes]
  rw [hwf] at h
  exact h

theorem initExecutor_error_iff (wf : WorkflowDefinitionSchema) :
    (initOk wf = false ↔ wf.links.any (linkTargetMissing wf)) := by
  rw [← buildDependenciesE_error_iff wf]
  unfold initOk initExecutor
  cases h : buildDependenciesE wf.nodes wf.links with
  | ok d =>
      simp only [h]
      constructor
      · intro hc
        simp [bind, Except.bind] at hc
      · rintro ⟨e, he⟩
        simp at he
  | error e =>
      simp only [h]
      constructor
      · intro _
        exact ⟨e, rfl⟩
      · intro _
        simp [bind, Except.bind]

theorem handleFold_error_iff (ex : Executor) (links : List Link)
    (acc : List ((String × String) × String)) :
    ((∃ e, handleFold ex links acc = .error e)
      ↔ links.any (linkSourceBad ex)) := by
  induction links generalizing acc with
  | nil => simp [handleFold]
  | cons l rest ih =>
      simp only [List.any_cons]
      cases hl : ex.node_dict.lookup l.source_id with
      | none => simp [handleFold, hl, linkSourceBad]
      | some n =>
          cases hr : (n.node_type == "RouterNode") with
          | false =>
              simp only [handleFold, hl, hr, Bool.false_eq_true, if_false]
              rw [ih]
              simp [linkSourceBad, hl, hr]
          | true =>
              cases ht : strTruthy l.source_handle with
              | false =>
                  simp [handleFold, hl, hr, ht, linkSourceBad]
              | true =>
                  cases hh : l.source_handle with
                  | none => simp [strTruthy, hh] at ht
                  | some hdl =>
                      rw [hh] at ht
                      simp only [handleFold, hl, hr, hh, ht, if_true]
                      rw [ih]
                      simp [linkSourceBad, hl, hr, hh, ht]

theorem getSourceHandles_error_iff (ex : Executor) :
    ((∃ e, getSourceHandles ex = .error e)
      ↔ ex.workflow.links.any (linkSourceBad ex)) := by
  unfold getSourceHandles
  exact handleFold_error_iff ex ex.workflow.links []

/-! ## Properties of `_process_subworkflows` (C7). -/

theorem lookup_mem {α : Type} {l : List (String × α)} {k : String} {v : α}
    (h : l.lookup k = some v) : (k, v) ∈ l := by
  induction l with
  | nil => simp [List.lookup] at h
  | cons hd tl ih =>
      obtain ⟨hk, hv⟩ := hd
      cases hb : (k == hk) with
      | true =>
          have hke : k = hk := by simpa using hb
          subst hke
          simp [List.lookup, hb] at h
          subst h
          exact List.mem_cons_self _ _
      | false =>
          simp only [List.lookup, hb] at h
          exact List.mem_cons_of_mem _ (ih h)

theorem lookup_mem_opt {α : Type} {l : List (Option String × α)}
    {k : Option String} {v : α}
    (h : l.lookup k = some v) : (k, v) ∈ l := by
  induction l with
  | nil => simp [List.lookup] at h
  | cons hd tl ih =>
      obtain ⟨hk, hv⟩ := hd
      cases hb : (k == hk) with
      | true =>
          have hke : k = hk := by simpa using hb
          subst hke
          simp [List.lookup, hb] at h
          subst h
          exact List.mem_cons_self _ _
      | false =>
          simp only [List.lookup, hb] at h
          exact List.mem_cons_of_mem _ (ih h)

theorem clearParent_parent (n : WorkflowNodeSchema) :
    n.clearParent.parent_id = none := by
  cases n
  rfl

theorem withConfig_parent (n : WorkflowNodeSchema) (c : List (String × ConfigValue)) :
    (n.withConfig c).parent_id = n.parent_id := by
  cases n
  rfl

theorem groupNodes_clear (nodes : List WorkflowNodeSchema) :
    ∀ acc : List (Option String × List WorkflowNodeSchema),
      (∀ e ∈ acc, ∀ n ∈ e.2, n.parent_id = none) →
      ∀ e ∈ nodes.foldl
        (fun acc node =>
          let key := node.parent_id
          match acc.lookup key with
          | some grp => acc.map
              (fun e => if e.1 == key then (key, grp ++ [node.clearParent]) else e)
          | none => acc ++ [(key, [node.clearParent])])
        acc,
      ∀ n ∈ e.2, n.parent_id = none := by
  induction nodes with
  | nil =>
      intro acc hacc
      simpa using hacc
  | cons nd rest ih =>
      intro acc hacc
      simp only [List.foldl_cons]
      apply ih
      cases hl : acc.lookup nd.parent_id with
      | some grp =>
          simp only [hl]
          intro e he n hn
          rw [List.mem_map] at he
          obtain ⟨e₀, he₀, heq⟩ := he
          by_cases hk : (e₀.1 == nd.parent_id) = true
          · rw [if_pos hk] at heq
            subst heq
            simp only at hn
            rw [List.mem_append] at hn
            rcases hn with hn | hn
            · exact hacc _ (lookup_mem_opt hl) n hn
            · simp at hn
              subst hn
              exact clearParent_parent nd
          · rw [if_neg hk] at heq
            subst heq
            exact hacc _ he₀ n hn
      | none =>
          simp only [hl]
          intro e he n hn
          rw [List.mem_append] at he
          rcases he with he | he
          · exact hacc _ he n hn
          · simp at he
            subst he
            simp at hn
            subst hn
            exact clearParent_parent nd

theorem groupNodesByParent_clear (nodes : List WorkflowNodeSchema) :
    ∀ e ∈ groupNodesByParent nodes, ∀ n ∈ e.2, n.parent_id = none := by
  unfold groupNodesByParent
  exact groupNodes_clear nodes [] (by simp)

theorem attachSubworkflow_parent (roots : List WorkflowNodeSchema) (pid : String)
    (sub : WorkflowDefinitionSchema)
    (h : ∀ m ∈ roots, m.parent_id = none) :
    ∀ n ∈ attachSubworkflow roots pid sub, n.parent_id = none := by
  induction roots with
  | nil => simp [attachSubworkflow]
  | cons r rest ih =>
      intro n hn
      unfold attachSubworkflow at hn
      by_cases hr : (r.id == pid) = true
      · rw [if_pos hr] at hn
        rcases List.mem_cons.mp hn with hn | hn
        · subst hn
          rw [withConfig_parent]
          exact h r (List.mem_cons_self _ _)
        · exact h n (List.mem_cons_of_mem _ hn)
      · rw [if_neg hr] at hn
        rcases List.mem_cons.mp hn with hn | hn
        · subst hn
          exact h n (List.mem_cons_self _ _)
        · exact ih (fun m hm => h m (List.mem_cons_of_mem _ hm)) n hn

theorem attachAll_clear (wfLinks : List Link)
    (groups : List (Option String × List WorkflowNodeSchema)) :
    ∀ roots, (∀ m ∈ roots, m.parent_id = none) →
      ∀ n ∈ attachAll wfLinks groups roots, n.parent_id = none := by
  induction groups with
  | nil =>
      intro roots hroots
      simpa [attachAll] using hroots
  | cons g rest ih =>
      obtain ⟨gk, gc⟩ := g
      intro roots hroots
      cases gk with
      | none => simpa only [attachAll] using ih roots hroots
      | some pid =>
          simp only [attachAll]
          by_cases hemp : (roots.filter (fun r => r.id == pid)).isEmpty = true
          · rw [if_pos hemp]
            exact ih roots hroots
          · rw [if_neg hemp]
            exact ih _ (attachSubworkflow_parent _ _ _ hroots)

theorem processSubworkflows_roots_clear (wf : WorkflowDefinitionSchema) :
    ∀ n ∈ (processSubworkflows wf).nodes, n.parent_id = none := by
  obtain ⟨ns, ls⟩ := wf
  unfold processSubworkflows
  simp only [WorkflowDefinitionSchema.nodes]
  apply attachAll_clear
  cases hl : (groupNodesByParent ns).lookup (none : Option String) with
  | none => simp [hl]
  | some grp =>
      simp only [hl, Option.getD]
      intro n hn
      exact groupNodesByParent_clear ns _ (lookup_mem_opt hl) n hn

/-! ## Executing a node whose dependencies have already completed. -/

theorem blocksNode_outputs_eq {st st' : St} (h : st'.outputs = st.outputs)
    (dep id : String) : blocksNode st' dep id = blocksNode st dep id := by
  simp [blocksNode, h]

theorem doneResults_mono {st st' : St}
    (h : ∀ k v, st.node_tasks.lookup k = some v → st'.node_tasks.lookup k = some v)
    (ds : List String) {rs : List ExecResult}
    (hd : doneResults st ds = some rs) : doneResults st' ds = some rs := by
  induction ds generalizing rs with
  | nil => simpa [doneResults] using hd
  | cons d rest ih =>
      simp only [doneResults] at hd ⊢
      cases hl : st.node_tasks.lookup d with
      | none => rw [hl] at hd; exact absurd hd (by simp)
      | some ts =>
          rw [hl] at hd
          cases ts with
          | running => exact absurd hd (by simp)
          | done r =>
              rw [h d _ hl]
              simp only at hd ⊢
              cases hrest : doneResults st rest with
              | none => rw [hrest] at hd; exact absurd hd (by simp)
              | some rs₀ =>
                  rw [hrest] at hd
                  simp at hd
                  rw [ih hrest]
                  simp [hd]

theorem getTaskF_succ (ex : Executor) (beh : Behavior) (hasCtx : Bool)
    (n : Nat) (id : String) (st : St) :
    getTaskF ex beh hasCtx (n + 1) id st =
      match st.node_tasks.lookup id with
      | some (.done r) => some (r, st)
      | some .running => none
      | none =>
          let st₁ := { st with
            node_tasks := st.node_tasks ++ [(id, TaskState.running)],
            events := st.events ++ [Event.createTask id] }
          match execNode ex beh hasCtx (fun d s => getTaskF ex beh hasCtx n d s) id st₁ with
          | none => none
          | some (r, st₂) =>
              some (r, { st₂ with node_tasks := aset st₂.node_tasks id (.done r) }) := rfl

theorem gatherWith_done (ex : Executor) (beh : Behavior) (hasCtx : Bool)
    (n : Nat) (st : St) (ds : List String) (rs : List ExecResult)
    (h : doneResults st ds = some rs) :
    gatherWith (fun d s => getTaskF ex beh hasCtx (n + 1) d s) ds st = some (rs, st) := by
  induction ds generalizing rs with
  | nil =>
      simp only [doneResults] at h
      cases h
      simp [gatherWith]
  | cons d rest ih =>
      simp only [doneResults] at h
      cases hl : st.node_tasks.lookup d with
      | none => rw [hl] at h; exact absurd h (by simp)
      | some ts =>
          rw [hl] at h
          cases ts with
          | running => exact absurd h (by simp)
          | done r =>
              simp only at h
              cases hrest : doneResults st rest with
              | none => rw [hrest] at h; exact absurd h (by simp)
              | some rs₀ =>
                  rw [hrest] at h
                  simp at h
                  subst h
                  have hHead : getTaskF ex beh hasCtx (n + 1) d st = some (r, st) := by
                    simp [getTaskF, hl]
                  simp [gatherWith, hHead, ih _ hrest]

theorem processSubworkflows_links_iff (wf : WorkflowDefinitionSchema)
    (link : Link) :
    (link ∈ (processSubworkflows wf).links ↔
      link ∈ wf.links ∧ ∀ node ∈ wf.nodes,
        ¬((node.id = link.source_id ∨ node.id = link.target_id) ∧
          strTruthy node.parent_id = true)) := by
  unfold processSubworkflows
  simp only [WorkflowDefinitionSchema.links, List.mem_filter]
  constructor
  · rintro ⟨hmem, hp⟩
    refine ⟨hmem, ?_⟩
    intro node hnode hc
    rw [Bool.not_eq_true', List.any_eq_false] at hp
    have := hp node hnode
    rcases hc.1 with h1 | h1 <;> simp [h1, hc.2] at this
  · rintro ⟨hmem, hp⟩
    refine ⟨hmem, ?_⟩
    rw [Bool.not_eq_true', List.any_eq_false]
    intro node hnode
    have hno := hp node hnode
    cases ht : strTruthy node.parent_id with
    | false => simp [ht]
    | true =>
        cases hid : (node.id == link.source_id) with
        | true => exact absurd ⟨Or.inl (by simpa using hid), ht⟩ hno
        | false =>
            cases hid2 : (node.id == link.target_id) with
            | true => exact absurd ⟨Or.inr (by simpa using hid2), ht⟩ hno
            | false => simp [hid, hid2]

/-! ## Branch-evaluation lemmas for `_execute_node`. -/

theorem execNode_pause (ex : Executor) (beh : Behavior) (hasCtx : Bool)
    (f : String → St → Option (ExecResult × St)) (id : String)
    (node : WorkflowNodeSchema) (deps : List String) (rs : List ExecResult)
    (st : St)
    (hnd : ex.node_dict.lookup id = some node)
    (hout : st.outputs.lookup id = none)
    (hdeps : ex.dependencies.lookup id = some deps)
    (hgather : gatherWith f deps st = some (rs, st))
    (hok : rs.any isErr = false)
    (hblock : deps.any (fun dep => blocksNode st dep id) = true) :
    execNode ex beh hasCtx f id st =
      some (.ok none, st.record (.updateTask id .pending true none)) := by
  unfold execNode
  simp only [hnd, hout, hdeps, Option.getD, hgather, hok, hblock, Bool.false_eq_true,
    if_false, if_true]

theorem execNode_nullGate (ex : Executor) (beh : Behavior) (hasCtx : Bool)
    (f : String → St → Option (ExecResult × St)) (id : String)
    (node : WorkflowNodeSchema) (deps : List String) (rs : List ExecResult)
    (st : St)
    (hnd : ex.node_dict.lookup id = some node)
    (hout : st.outputs.lookup id = none)
    (hdeps : ex.dependencies.lookup id = some deps)
    (hgather : gatherWith f deps st = some (rs, st))
    (hok : rs.any isErr = false)
    (hnoblock : deps.any (fun dep => blocksNode st dep id) = false)
    (hnofail : deps.any (fun dep => st.failed_nodes.contains dep) = false)
    (hcoal : (node.node_type != "CoalesceNode") = true)
    (hnull : (rs.map execValue).any Option.isNone = true) :
    execNode ex beh hasCtx f id st =
      some (.ok none,
        St.record { st with outputs := aset st.outputs id none }
          (.updateTask id .canceled false none)) := by
  unfold execNode
  simp only [hnd, hout, hdeps, Option.getD, hgather, hok, hnoblock, hnofail, hcoal,
    hnull, Bool.false_eq_true, Bool.and_self, if_false, if_true]

theorem execNode_cancelRoute (ex : Executor) (beh : Behavior) (hasCtx : Bool)
    (f : String → St → Option (ExecResult × St)) (id : String)
    (node : WorkflowNodeSchema) (deps : List String) (rs : List ExecResult)
    (handles : List ((String × String) × String)) (st : St)
    (hnd : ex.node_dict.lookup id = some node)
    (hout : st.outputs.lookup id = none)
    (hdeps : ex.dependencies.lookup id = some deps)
    (hgather : gatherWith f deps st = some (rs, st))
    (hok : rs.any isErr = false)
    (hnoblock : deps.any (fun dep => blocksNode st dep id) = false)
    (hnofail : deps.any (fun dep => st.failed_nodes.contains dep) = false)
    (hnonull : ((node.node_type != "CoalesceNode") &&
      (rs.map execValue).any Option.isNone) = false)
    (hsh : getSourceHandles ex = .ok handles)
    (hasm : assembleInput ex handles id deps (rs.map execValue) = .error .cancelRoute) :
    execNode ex beh hasCtx f id st =
      some (.ok none,
        St.record { st with outputs := aset st.outputs id none }
          (.updateTask id .canceled false none)) := by
  unfold execNode
  simp only [hnd, hout, hdeps, Option.getD, hgather, hok, hnoblock, hnofail, hnonull,
    hsh, hasm, Bool.false_eq_true, if_false, if_true]

theorem execNode_invoke (ex : Executor) (beh : Behavior) (hasCtx : Bool)
    (f : String → St → Option (ExecResult × St)) (id : String)
    (node : WorkflowNodeSchema) (deps : List String) (rs : List ExecResult)
    (handles : List ((String × String) × String)) (raw : Input) (out : Option NodeOutput)
    (st : St)
    (hnd : ex.node_dict.lookup id = some node)
    (hout : st.outputs.lookup id = none)
    (hdeps : ex.dependencies.lookup id = some deps)
    (hgather : gatherWith f deps st = some (rs, st))
    (hok : rs.any isErr = false)
    (hnoblock : deps.any (fun dep => blocksNode st dep id) = false)
    (hnofail : deps.any (fun dep => st.failed_nodes.contains dep) = false)
    (hnonull : ((node.node_type != "CoalesceNode") &&
      (rs.map execValue).any Option.isNone) = false)
    (hsh : getSourceHandles ex = .ok handles)
    (hasm : assembleInput ex handles id deps (rs.map execValue) = .ok raw)
    (hni : (node.node_type == "InputNode") = false)
    (hfne : (raw.filterMap (fun e => e.2.map (fun v => (e.1, v)))).isEmpty = false)
    (hcall : beh.call node.title node.node_type node.config
      ((raw.filterMap (fun e => e.2.map (fun v => (e.1, v)))).map
        (fun e => (e.1, some e.2))) = .ok out) :
    execNode ex beh hasCtx f id st =
      some (.ok out,
        let st₁ := St.record st (.updateTask id .running false none)
        let st₂ := { st₁ with
          factoryCalls := st₁.factoryCalls ++ [(FPurpose.nodeInstance, id)] }
        let st₃ := St.record st₂ (.updateTask id .running false none)
        let st₄ := { st₃ with
          invocations := st₃.invocations ++
            [(id, (raw.filterMap (fun e => e.2.map (fun v => (e.1, v)))).map
              (fun e => (e.1, some e.2)))] }
        let st₅ := St.record st₄ (.updateTask id .completed false none)
        { st₅ with outputs := aset st₅.outputs id out }) := by
  unfold execNode
  simp only [hnd, hout, hdeps, Option.getD, hgather, hok, hnoblock, hnofail, hnonull,
    hsh, hasm, hni, hfne, hcall, Bool.false_eq_true, if_false, if_true]

/-! ## Input-assembly facts for router consumers (C4). -/

theorem exists_zip_of_mem {α β : Type} {d : α} {deps : List α} (outs : List β)
    (hlen : deps.length = outs.length) (hmem : d ∈ deps) :
    ∃ v, (d, v) ∈ deps.zip outs := by
  induction deps generalizing outs with
  | nil => simp at hmem
  | cons a as ih =>
      cases outs with
      | nil => simp at hlen
      | cons b bs =>
          rcases List.mem_cons.mp hmem with h | h
          · subst h
            exact ⟨b, List.mem_cons_self _ _⟩
          · obtain ⟨v, hv⟩ := ih bs (by simpa using hlen) h
            exact ⟨v, List.mem_cons_of_mem _ hv⟩

/-- If the assembly loop succeeded, every router predecessor contributed a
non-null route value. -/
theorem assembleInput_ok_routes (ex : Executor)
    (handles : List ((String × String) × String)) (id : String) :
    ∀ deps outs raw, assembleInput ex handles id deps outs = .ok raw →
      ∀ p ∈ deps.zip outs, ∀ nd h, ex.node_dict.lookup p.1 = some nd →
        nd.node_type = "RouterNode" → handles.lookup (p.1, id) = some h →
        (pyGetattr p.2 h).isSome := by
  intro deps
  induction deps with
  | nil => intro outs raw _ p hp; simp at hp
  | cons d ds ih =>
      intro outs raw hasm p hp nd h hnd hrt hh
      cases outs with
      | nil => simp at hp
      | cons o os =>
          rw [List.zip_cons_cons] at hp
          unfold assembleInput at hasm
          rcases List.mem_cons.mp hp with hphead | hptail
          · subst hphead
            simp only at hnd hh ⊢
            cases hg : pyGetattr o h with
            | some v => simp [hg]
            | none => simp [hnd, hrt, hh, hg] at hasm
          · cases hlk : ex.node_dict.lookup d with
            | none => simp [hlk] at hasm
            | some pnd =>
                cases hrec : assembleInput ex handles id ds os with
                | ok rest => exact ih os rest hrec p hptail nd h hnd hrt hh
                | error e =>
                    by_cases hr : (pnd.node_type == "RouterNode") = true
                    · cases hhd : handles.lookup (d, id) with
                      | none => simp [hlk, hr, hhd] at hasm
                      | some hd =>
                          cases hg : pyGetattr o hd with
                          | none => simp [hlk, hr, hhd, hg] at hasm
                          | some v => simp [hlk, hr, hhd, hg, hrec, Except.map] at hasm
                    · simp [hlk, hr, hrec, Except.map] at hasm

/-- If every predecessor resolves, every router predecessor has a handle
mapped, and some router predecessor's route value is null, the assembly
loop cancels the node. -/
theorem assembleInput_null_cancel (ex : Executor)
    (handles : List ((String × String) × String)) (id : String) :
    ∀ deps outs,
      (∀ d ∈ deps, (ex.node_dict.lookup d).isSome) →
      (∀ d ∈ deps, ∀ nd, ex.node_dict.lookup d = some nd →
        nd.node_type = "RouterNode" → (handles.lookup (d, id)).isSome) →
      (∃ p ∈ deps.zip outs, ∃ nd h, ex.node_dict.lookup p.1 = some nd ∧
        nd.node_type = "RouterNode" ∧ handles.lookup (p.1, id) = some h ∧
        pyGetattr p.2 h = none) →
      assembleInput ex handles id deps outs = .error .cancelRoute := by
  intro deps
  induction deps with
  | nil =>
      rintro outs _ _ ⟨p, hp, _⟩
      simp at hp
  | cons d ds ih =>
      rintro outs hres hhand ⟨p, hp, nd, h, hnd, hrt, hh, hnullroute⟩
      cases outs with
      | nil => simp at hp
      | cons o os =>
          rw [List.zip_cons_cons] at hp
          unfold assembleInput
          cases hlk : ex.node_dict.lookup d with
          | none =>
              have hcon := hres d (List.mem_cons_self _ _)
              rw [hlk] at hcon
              simp at hcon
          | some pnd =>
              rcases List.mem_cons.mp hp with hphead | hptail
              · subst hphead
                simp only at hnd hh hnullroute
                rw [hnd] at hlk
                cases hlk
                simp [hrt, hh, hnullroute]
              · by_cases hr : (pnd.node_type == "RouterNode") = true
                · cases hhd : handles.lookup (d, id) with
                  | none =>
                      have hcon := hhand d (List.mem_cons_self _ _) pnd hlk
                        (by simpa using hr)
                      rw [hhd] at hcon
                      simp at hcon
                  | some hd =>
                      cases hg : pyGetattr o hd with
                      | none => simp [hr, hhd, hg]
                      | some v =>
                          have hrec := ih os
                            (fun x hx => hres x (List.mem_cons_of_mem _ hx))
                            (fun x hx => hhand x (List.mem_cons_of_mem _ hx))
                            ⟨p, hptail, nd, h, hnd, hrt, hh, hnullroute⟩
                          simp [hr, hhd, hg, hrec, Except.map]
                · have hrec := ih os
                    (fun x hx => hres x (List.mem_cons_of_mem _ hx))
                    (fun x hx => hhand x (List.mem_cons_of_mem _ hx))
                    ⟨p, hptail, nd, h, hnd, hrt, hh, hnullroute⟩
                  simp [hr, hrec, Except.map]

/-! ## Global run invariant: at-most-once task creation and instantiation,
and no task ever completes with a `PauseException` (C1, C2). -/

/-- An execution-handle result is not a raised `PauseException`. -/
def resultNoPause (r : ExecResult) : Prop :=
  ∀ p o, r ≠ .error (.pauseExc p o)

/-- The scheduler-state invariant: `create_task` recorder calls agree with
handle existence; a node is factory-instantiated at most once, and not yet
while its own handle is still running; every completed handle's result is
pause-free. -/
structure Inv (st : St) : Prop where
  create_eq : ∀ id, createCount st.events id =
    (if (st.node_tasks.lookup id).isSome then 1 else 0)
  inst_le : ∀ id, instCount st.factoryCalls id ≤
    (if (st.node_tasks.lookup id).isSome then 1 else 0)
  inst_run : ∀ id, st.node_tasks.lookup id = some .running →
    instCount st.factoryCalls id = 0
  no_pause : ∀ e ∈ st.node_tasks, ∀ r, e.2 = TaskState.done r → resultNoPause r
  keys_nodup : (st.node_tasks.map Prod.fst).Nodup

/-- Contract of the dependency-handle lookup used while executing a node:
it preserves the invariant, never returns a pause, and never disturbs
existing task entries. -/
def FContract (f : String → St → Option (ExecResult × St)) : Prop :=
  ∀ d s r s', f d s = some (r, s') → Inv s →
    Inv s' ∧ resultNoPause r ∧
    (∀ k v, s.node_tasks.lookup k = some v → s'.node_tasks.lookup k = some v)

theorem gatherWith_post {f : String → St → Option (ExecResult × St)}
    (hF : FContract f) :
    ∀ ds s rs s', gatherWith f ds s = some (rs, s') → Inv s →
      Inv s' ∧ (∀ k v, s.node_tasks.lookup k = some v →
        s'.node_tasks.lookup k = some v) := by
  intro ds
  induction ds with
  | nil =>
      intro s rs s' h hInv
      simp only [gatherWith, Option.some.injEq, Prod.mk.injEq] at h
      obtain ⟨h1, h2⟩ := h
      subst h2
      exact ⟨hInv, fun k v hv => hv⟩
  | cons d rest ih =>
      intro s rs s' h hInv
      simp only [gatherWith] at h
      cases hd : f d s with
      | none => rw [hd] at h; simp at h
      | some p =>
          obtain ⟨r₁, s₁⟩ := p
          rw [hd] at h
          cases hrest : gatherWith f rest s₁ with
          | none => simp [hrest] at h
          | some q =>
              obtain ⟨rs₂, s₂⟩ := q
              simp [hrest] at h
              obtain ⟨hF₁, _, hM₁⟩ := hF d s r₁ s₁ hd hInv
              obtain ⟨hF₂, hM₂⟩ := ih s₁ rs₂ s₂ hrest hF₁
              refine ⟨h.2 ▸ hF₂, fun k v hv => h.2 ▸ hM₂ k v (hM₁ k v hv)⟩

/-- `_get_source_handles` raises only `KeyError` or `ValueError`. -/
theorem handleFold_error_kinds (ex : Executor) :
    ∀ links acc e, handleFold ex links acc = .error e →
      (e = PyExc.keyError ∨ e = PyExc.valueError) := by
  intro links
  induction links with
  | nil => intro acc e h; simp [handleFold] at h
  | cons l rest ih =>
      intro acc e h
      unfold handleFold at h
      cases hl : ex.node_dict.lookup l.source_id with
      | none =>
          simp only [hl] at h
          simp at h
          exact Or.inl h.symm
      | some n =>
          simp only [hl] at h
          by_cases hr : (n.node_type == "RouterNode") = true
          · rw [if_pos hr] at h
            by_cases ht : strTruthy l.source_handle = true
            · rw [if_pos ht] at h
              cases hh : l.source_handle with
              | none =>
                  simp only [hh] at h
                  simp at h
                  exact Or.inr h.symm
              | some hdl =>
                  simp only [hh] at h
                  exact ih _ _ h
            · rw [if_neg ht] at h
              simp at h
              exact Or.inr h.symm
          · rw [if_neg hr] at h
            exact ih _ _ h

/-- The invariant parts re-established at the end of a node execution. -/
def PostParts (id : String) (st' : St) : Prop :=
  st'.node_tasks.lookup id = some TaskState.running ∧
  (∀ j, createCount st'.events j =
    (if (st'.node_tasks.lookup j).isSome then 1 else 0)) ∧
  (∀ e ∈ st'.node_tasks, ∀ r₀, e.2 = TaskState.done r₀ → resultNoPause r₀) ∧
  (∀ j, j ≠ id → st'.node_tasks.lookup j = some .running →
    instCount st'.factoryCalls j = 0) ∧
  (∀ j, j ≠ id → instCount st'.factoryCalls j ≤
    (if (st'.node_tasks.lookup j).isSome then 1 else 0)) ∧
  instCount st'.factoryCalls id ≤ 1 ∧
  (st'.node_tasks.map Prod.fst).Nodup

theorem lookup_none_keys {α : Type} {l : List (String × α)} {k : String}
    (h : l.lookup k = none) : k ∉ l.map Prod.fst := by
  induction l with
  | nil => simp
  | cons hd tl ih =>
      obtain ⟨hk, hv⟩ := hd
      cases hb : (k == hk) with
      | true => simp [List.lookup, hb] at h
      | false =>
          simp only [List.lookup, hb] at h
          have hne : k ≠ hk := by simpa using hb
          simp [hne, ih h]

theorem aset_keys_of_mem {α : Type} {l : List (String × α)} {k : String}
    {w : α} (v : α) (h : l.lookup k = some w) :
    (aset l k v).map Prod.fst = l.map Prod.fst := by
  induction l with
  | nil => simp [List.lookup] at h
  | cons hd tl ih =>
      obtain ⟨hk, hv⟩ := hd
      cases hb : (k == hk) with
      | true =>
          have hke : k = hk := by simpa using hb
          subst hke
          simp [aset]
      | false =>
          simp only [List.lookup, hb] at h
          have hne : k ≠ hk := by simpa using hb
          have hb' : (hk == k) = false := by simpa using (Ne.symm hne)
          simp [aset, hb', ih h]

theorem postParts_noFactory {st₂ st' : St} (hInv₂ : Inv st₂) (id : String)
    (hrun₂ : st₂.node_tasks.lookup id = some TaskState.running)
    (htasks : st'.node_tasks = st₂.node_tasks)
    (hfc : st'.factoryCalls = st₂.factoryCalls)
    (hev : ∀ j, createCount st'.events j = createCount st₂.events j) :
    PostParts id st' := by
  refine ⟨?_, ?_, ?_, ?_, ?_, ?_, ?_⟩
  · rw [htasks]; exact hrun₂
  · intro j; rw [hev j, htasks]; exact hInv₂.create_eq j
  · intro e he r₀ hr; exact hInv₂.no_pause e (htasks ▸ he) r₀ hr
  · intro j _ hj; rw [htasks] at hj; rw [hfc]; exact hInv₂.inst_run j hj
  · intro j _; rw [hfc, htasks]; exact hInv₂.inst_le j
  · rw [hfc, hInv₂.inst_run id hrun₂]
    exact Nat.zero_le 1
  · rw [htasks]; exact hInv₂.keys_nodup

theorem postParts_withFactory {st₂ st' : St} (hInv₂ : Inv st₂) (id : String)
    (hrun₂ : st₂.node_tasks.lookup id = some TaskState.running)
    (htasks : st'.node_tasks = st₂.node_tasks)
    (hfc : st'.factoryCalls = st₂.factoryCalls ++ [(FPurpose.nodeInstance, id)])
    (hev : ∀ j, createCount st'.events j = createCount st₂.events j) :
    PostParts id st' := by
  have hinst : ∀ j, instCount st'.factoryCalls j =
      instCount st₂.factoryCalls j + (if j = id then 1 else 0) := by
    intro j
    rw [hfc, instCount_append]
    by_cases hj : id = j
    · subst hj
      simp
    · have hb : (id == j) = false := by simpa using hj
      have hb' : ¬ (j = id) := fun hc => hj hc.symm
      simp [hb, hb']
  refine ⟨?_, ?_, ?_, ?_, ?_, ?_, ?_⟩
  · rw [htasks]; exact hrun₂
  · intro j; rw [hev j, htasks]; exact hInv₂.create_eq j
  · intro e he r₀ hr; exact hInv₂.no_pause e (htasks ▸ he) r₀ hr
  · intro j hji hj
    rw [htasks] at hj
    rw [hinst j, if_neg hji, Nat.add_zero]
    exact hInv₂.inst_run j hj
  · intro j hji
    rw [hinst j, if_neg hji, Nat.add_zero, htasks]
    exact hInv₂.inst_le j
  · rw [hinst id, if_pos rfl, hInv₂.inst_run id hrun₂]
  · rw [htasks]; exact hInv₂.keys_nodup

theorem execNode_post (ex : Executor) (beh : Behavior) (hasCtx : Bool)
    {f : String → St → Option (ExecResult × St)} (hF : FContract f)
    (id : String) (st : St) (r : ExecResult) (st' : St)
    (hInv : Inv st) (hrun : st.node_tasks.lookup id = some .running)
    (h : execNode ex beh hasCtx f id st = some (r, st')) :
    resultNoPause r ∧
    (∀ k v, st.node_tasks.lookup k = some v → st'.node_tasks.lookup k = some v) ∧
    PostParts id st' := by
  unfold execNode at h
  cases hnd : ex.node_dict.lookup id with
  | none =>
      simp only [hnd, Option.some.injEq, Prod.mk.injEq] at h
      obtain ⟨hr, hst⟩ := h
      subst hr
      subst hst
      exact ⟨by simp [resultNoPause], fun k v hv => hv,
        postParts_noFactory hInv id hrun rfl rfl (fun j => rfl)⟩
  | some node =>
      simp only [hnd] at h
      cases hmemo : st.outputs.lookup id with
      | some v =>
          simp only [hmemo, Option.some.injEq, Prod.mk.injEq] at h
          obtain ⟨hr, hst⟩ := h
          subst hr
          subst hst
          exact ⟨by simp [resultNoPause], fun k v hv => hv,
            postParts_noFactory hInv id hrun rfl rfl (fun j => rfl)⟩
      | none =>
          simp only [hmemo] at h
          cases hg : gatherWith f ((ex.dependencies.lookup id).getD []) st with
          | none => simp only [hg] at h; exact absurd h (by simp)
          | some p =>
              obtain ⟨results, st₂⟩ := p
              simp only [hg] at h
              obtain ⟨hInv₂, hmono₂⟩ :=
                gatherWith_post hF _ st results st₂ hg hInv
              have hrun₂ := hmono₂ _ _ hrun
              by_cases herr : results.any isErr = true
              · rw [if_pos herr] at h
                simp only [upstreamHandler, St.addFailed, St.record,
                  Option.some.injEq, Prod.mk.injEq] at h
                obtain ⟨hr, hst⟩ := h
                subst hr
                subst hst
                exact ⟨by simp [resultNoPause], fun k v hv => hmono₂ k v hv,
                  postParts_noFactory hInv₂ id hrun₂ rfl rfl
                    (fun j => createCount_update _ _ _ _ _ _)⟩
              · rw [if_neg herr] at h
                by_cases hblock :
                    (((ex.dependencies.lookup id).getD []).any
                      (fun dep => blocksNode st₂ dep id)) = true
                · rw [if_pos hblock] at h
                  simp only [St.record, Option.some.injEq, Prod.mk.injEq] at h
                  obtain ⟨hr, hst⟩ := h
                  subst hr
                  subst hst
                  exact ⟨by simp [resultNoPause], fun k v hv => hmono₂ k v hv,
                    postParts_noFactory hInv₂ id hrun₂ rfl rfl
                      (fun j => createCount_update _ _ _ _ _ _)⟩
                · rw [if_neg hblock] at h
                  by_cases hfaildep :
                      (((ex.dependencies.lookup id).getD []).any
                        (fun dep => st₂.failed_nodes.contains dep)) = true
                  · rw [if_pos hfaildep] at h
                    simp only [upstreamHandler, St.addFailed, St.record,
                      Option.some.injEq, Prod.mk.injEq] at h
                    obtain ⟨hr, hst⟩ := h
                    subst hr
                    subst hst
                    exact ⟨by simp [resultNoPause], fun k v hv => hmono₂ k v hv,
                      postParts_noFactory hInv₂ id hrun₂ rfl rfl
                        (fun j => createCount_update _ _ _ _ _ _)⟩
                  · rw [if_neg hfaildep] at h
                    by_cases hnull :
                        ((node.node_type != "CoalesceNode") &&
                          (results.map execValue).any Option.isNone) = true
                    · rw [if_pos hnull] at h
                      simp only [St.record, Option.some.injEq, Prod.mk.injEq] at h
                      obtain ⟨hr, hst⟩ := h
                      subst hr
                      subst hst
                      exact ⟨by simp [resultNoPause], fun k v hv => hmono₂ k v hv,
                        postParts_noFactory hInv₂ id hrun₂ rfl rfl
                          (fun j => createCount_update _ _ _ _ _ _)⟩
                    · rw [if_neg hnull] at h
                      cases hsh : getSourceHandles ex with
                      | error e =>
                          simp only [hsh, failureHandler, St.addFailed, St.record,
                            Option.some.injEq, Prod.mk.injEq] at h
                          obtain ⟨hr, hst⟩ := h
                          subst hr
                          subst hst
                          refine ⟨?_, fun k v hv => hmono₂ k v hv,
                            postParts_noFactory hInv₂ id hrun₂ rfl rfl
                              (fun j => createCount_update _ _ _ _ _ _)⟩
                          rcases handleFold_error_kinds ex _ _ _ hsh with he | he <;>
                            (subst he; simp [resultNoPause])
                      | ok handles =>
                          simp only [hsh] at h
                          cases hasm : assembleInput ex handles id
                              ((ex.dependencies.lookup id).getD [])
                              (results.map execValue) with
                          | error ae =>
                              cases ae with
                              | cancelRoute =>
                                  simp only [hasm, St.record, Option.some.injEq,
                                    Prod.mk.injEq] at h
                                  obtain ⟨hr, hst⟩ := h
                                  subst hr
                                  subst hst
                                  exact ⟨by simp [resultNoPause],
                                    fun k v hv => hmono₂ k v hv,
                                    postParts_noFactory hInv₂ id hrun₂ rfl rfl
                                      (fun j => createCount_update _ _ _ _ _ _)⟩
                              | missingHandle =>
                                  simp only [hasm, failureHandler, St.addFailed,
                                    St.record, Option.some.injEq, Prod.mk.injEq] at h
                                  obtain ⟨hr, hst⟩ := h
                                  subst hr
                                  subst hst
                                  exact ⟨by simp [resultNoPause],
                                    fun k v hv => hmono₂ k v hv,
                                    postParts_noFactory hInv₂ id hrun₂ rfl rfl
                                      (fun j => createCount_update _ _ _ _ _ _)⟩
                              | missingPredNode =>
                                  simp only [hasm, failureHandler, St.addFailed,
                                    St.record, Option.some.injEq, Prod.mk.injEq] at h
                                  obtain ⟨hr, hst⟩ := h
                                  subst hr
                                  subst hst
                                  exact ⟨by simp [resultNoPause],
                                    fun k v hv => hmono₂ k v hv,
                                    postParts_noFactory hInv₂ id hrun₂ rfl rfl
                                      (fun j => createCount_update _ _ _ _ _ _)⟩
                          | ok raw =>
                              simp only [hasm] at h
                              -- the InputNode redirection and the None-filter
                              -- produce some input list `inp`; generalize it
                              revert h
                              generalize ((if (node.node_type == "InputNode") = true
                                  then (st₂.initial_inputs.lookup id).getD []
                                  else raw).filterMap
                                    (fun e => e.2.map (fun v => (e.1, v)))) = inp
                              intro h
                              by_cases hemp : inp.isEmpty = true
                              · rw [if_pos hemp] at h
                                simp only [failureHandler, St.addFailed, St.record,
                                  Option.some.injEq, Prod.mk.injEq] at h
                                obtain ⟨hr, hst⟩ := h
                                subst hr
                                subst hst
                                exact ⟨by simp [resultNoPause],
                                  fun k v hv => hmono₂ k v hv,
                                  postParts_noFactory hInv₂ id hrun₂ rfl rfl
                                    (fun j => by
                                      rw [createCount_update, createCount_update])⟩
                              · rw [if_neg hemp] at h
                                cases hcall : beh.call node.title node.node_type
                                    node.config (inp.map (fun e => (e.1, some e.2))) with
                                | ok out =>
                                    simp only [hcall, St.record, Option.some.injEq,
                                      Prod.mk.injEq] at h
                                    obtain ⟨hr, hst⟩ := h
                                    subst hr
                                    subst hst
                                    exact ⟨by simp [resultNoPause],
                                      fun k v hv => hmono₂ k v hv,
                                      postParts_withFactory hInv₂ id hrun₂ rfl rfl
                                        (fun j => by
                                          rw [createCount_update, createCount_update,
                                            createCount_update])⟩
                                | pause pnid pout =>
                                    simp only [hcall, St.record] at h
                                    cases hctx : hasCtx with
                                    | true =>
                                        rw [hctx] at h
                                        simp only [if_true, Option.some.injEq,
                                          Prod.mk.injEq] at h
                                        obtain ⟨hr, hst⟩ := h
                                        subst hr
                                        subst hst
                                        exact ⟨by simp [resultNoPause],
                                          fun k v hv => hmono₂ k v hv,
                                          postParts_withFactory hInv₂ id hrun₂ rfl rfl
                                            (fun j => by
                                              rw [createCount_update, createCount_update,
                                                createCount_update])⟩
                                    | false =>
                                        rw [hctx] at h
                                        simp only [Bool.false_eq_true, if_false,
                                          Option.some.injEq, Prod.mk.injEq] at h
                                        obtain ⟨hr, hst⟩ := h
                                        subst hr
                                        subst hst
                                        exact ⟨by simp [resultNoPause],
                                          fun k v hv => hmono₂ k v hv,
                                          postParts_withFactory hInv₂ id hrun₂ rfl rfl
                                            (fun j => by
                                              rw [createCount_update, createCount_update,
                                                createCount_update])⟩
                                | fail =>
                                    simp only [hcall, failureHandler, St.addFailed,
                                      St.record, Option.some.injEq, Prod.mk.injEq] at h
                                    obtain ⟨hr, hst⟩ := h
                                    subst hr
                                    subst hst
                                    exact ⟨by simp [resultNoPause],
                                      fun k v hv => hmono₂ k v hv,
                                      postParts_withFactory hInv₂ id hrun₂ rfl rfl
                                        (fun j => by
                                          rw [createCount_update, createCount_update,
                                            createCount_update])⟩

theorem mem_aset {α : Type} {x : String × α} {l : List (String × α)}
    {k : String} {v : α} (h : x ∈ aset l k v) : x ∈ l ∨ x = (k, v) := by
  induction l with
  | nil => simpa [aset] using h
  | cons hd tl ih =>
      obtain ⟨hk, hv⟩ := hd
      unfold aset at h
      by_cases hb : (hk == k) = true
      · rw [if_pos hb] at h
        rcases List.mem_cons.mp h with h | h
        · exact Or.inr h
        · exact Or.inl (List.mem_cons_of_mem _ h)
      · rw [if_neg hb] at h
        rcases List.mem_cons.mp h with h | h
        · exact Or.inl (h ▸ List.mem_cons_self _ _)
        · rcases ih h with h | h
          · exact Or.inl (List.mem_cons_of_mem _ h)
          · exact Or.inr h

theorem lookup_aset_ne {α : Type} (l : List (String × α)) (k : String) (v : α)
    {j : String} (hj : j ≠ k) : (aset l k v).lookup j = l.lookup j := by
  rw [lookup_aset]
  have hb : (j == k) = false := by simpa using hj
  simp [hb]

/-- The memoised task lookup satisfies `FContract` at every fuel. -/
theorem getTaskF_contract (ex : Executor) (beh : Behavior) (hasCtx : Bool) :
    ∀ n, FContract (fun d s => getTaskF ex beh hasCtx n d s) := by
  intro n
  induction n with
  | zero =>
      intro d s r s' h _
      simp [getTaskF] at h
  | succ n ih =>
      intro d s r s' h₀ hInv
      have h : getTaskF ex beh hasCtx (n + 1) d s = some (r, s') := h₀
      rw [getTaskF_succ] at h
      cases hl : s.node_tasks.lookup d with
      | some ts =>
          cases ts with
          | done r₀ =>
              simp only [hl, Option.some.injEq, Prod.mk.injEq] at h
              obtain ⟨hr, hst⟩ := h
              subst hr
              subst hst
              exact ⟨hInv, hInv.no_pause _ (lookup_mem hl) r₀ rfl,
                fun k v hv => hv⟩
          | running =>
              simp only [hl] at h
              exact absurd h (by simp)
      | none =>
          simp only [hl] at h
          set st₁ : St := { s with
            node_tasks := s.node_tasks ++ [(d, TaskState.running)],
            events := s.events ++ [Event.createTask d] } with hst₁def
          have hrun₁ : st₁.node_tasks.lookup d = some TaskState.running := by
            show ((s.node_tasks ++ [(d, TaskState.running)]).lookup d) =
              some TaskState.running
            rw [lookup_append_none _ hl]
            simp [List.lookup]
          have hInv₁ : Inv st₁ := by
            constructor
            · intro j
              show createCount (s.events ++ [Event.createTask d]) j = _
              rw [createCount_create]
              by_cases hj : d = j
              · subst hj
                have h0 := hInv.create_eq d
                rw [hl] at h0
                simp at h0
                simp [h0, hrun₁]
              · have hb : (d == j) = false := by simpa using hj
                have hj' : j ≠ d := fun hc => hj hc.symm
                simp only [hb, if_false, Nat.add_zero]
                rw [hInv.create_eq j]
                cases hlj : s.node_tasks.lookup j with
                | some w => rw [lookup_append_some _ hlj]; simp
                | none =>
                    rw [lookup_append_none _ hlj]
                    have : ((([(d, TaskState.running)] :
                        List (String × TaskState))).lookup j) = none := by
                      have hb' : (j == d) = false := by simpa using hj'
                      simp [List.lookup, hb']
                    simp [this]
            · intro j
              show instCount s.factoryCalls j ≤ _
              by_cases hj : j = d
              · subst hj
                have h0 := hInv.inst_le j
                rw [hl] at h0
                simp at h0
                simp [h0]
              · have h0 := hInv.inst_le j
                cases hlj : s.node_tasks.lookup j with
                | some w =>
                    rw [lookup_append_some _ hlj]
                    rw [hlj] at h0
                    simpa using h0
                | none =>
                    rw [lookup_append_none _ hlj]
                    rw [hlj] at h0
                    simp at h0
                    simp [h0]
            · intro j hj
              show instCount s.factoryCalls j = 0
              by_cases hjd : j = d
              · subst hjd
                have h0 := hInv.inst_le j
                rw [hl] at h0
                simpa using h0
              · have hb' : (j == d) = false := by simpa using hjd
                cases hlj : s.node_tasks.lookup j with
                | some w =>
                    rw [lookup_append_some _ hlj] at hj
                    cases hj
                    exact hInv.inst_run j hlj
                | none =>
                    rw [lookup_append_none _ hlj] at hj
                    simp [List.lookup, hb'] at hj
            · intro e he r₀ hr
              show resultNoPause r₀
              rcases List.mem_append.mp he with he | he
              · exact hInv.no_pause e he r₀ hr
              · simp at he
                subst he
                simp at hr
            · show ((s.node_tasks ++ [(d, TaskState.running)]).map Prod.fst).Nodup
              rw [List.map_append, List.nodup_append]
              refine ⟨hInv.keys_nodup, List.nodup_singleton d, ?_⟩
              intro a ha hb
              simp at hb
              subst hb
              exact (lookup_none_keys hl) ha
          cases hex : execNode ex beh hasCtx
              (fun d s => getTaskF ex beh hasCtx n d s) d st₁ with
          | none =>
              simp only [hex] at h
              exact absurd h (by simp)
          | some q =>
              obtain ⟨r₂, st₂⟩ := q
              simp only [hex, Option.some.injEq, Prod.mk.injEq] at h
              obtain ⟨hr, hst⟩ := h
              subst hr
              subst hst
              obtain ⟨hnp, hmono, hP⟩ :=
                execNode_post ex beh hasCtx ih d _ r₂ st₂ hInv₁ hrun₁ hex
              obtain ⟨hrun₂, hcr, hnp2, hir, hle, hid, hnd2⟩ := hP
              refine ⟨?_, hnp, ?_⟩
              · constructor
                · intro j
                  show createCount st₂.events j = _
                  rw [hcr j]
                  by_cases hj : j = d
                  · subst hj
                    rw [hrun₂, lookup_aset]
                    simp
                  · rw [lookup_aset_ne _ _ _ hj]
                · intro j
                  show instCount st₂.factoryCalls j ≤ _
                  by_cases hj : j = d
                  · subst hj
                    rw [lookup_aset]
                    simpa using hid
                  · rw [lookup_aset_ne _ _ _ hj]
                    exact hle j hj
                · intro j hj
                  show instCount st₂.factoryCalls j = 0
                  by_cases hjd : j = d
                  · subst hjd
                    rw [lookup_aset] at hj
                    simp at hj
                  · rw [lookup_aset_ne _ _ _ hjd] at hj
                    exact hir j hjd hj
                · intro e he r₀ hr
                  rcases mem_aset he with he | he
                  · exact hnp2 e he r₀ hr
                  · subst he
                    simp at hr
                    subst hr
                    exact hnp
                · show ((aset st₂.node_tasks d (TaskState.done r₂)).map Prod.fst).Nodup
                  rw [aset_keys_of_mem _ hrun₂]
                  exact hnd2
              · intro k v hv
                have hkd : k ≠ d := by
                  intro hc
                  subst hc
                  rw [hv] at hl
                  cases hl
                have h1 : ((s.node_tasks ++ [(d, TaskState.running)]).lookup k) =
                    some v := lookup_append_some _ hv
                have h2 := hmono k v h1
                show ((aset st₂.node_tasks d (TaskState.done r₂)).lookup k) = some v
                rw [lookup_aset_ne _ _ _ hkd]
                exact h2

/-- A state with no tasks, no events and no instantiations satisfies the
invariant. -/
theorem Inv_clean (st : St) (htasks : st.node_tasks = [])
    (hev : st.events = [])
    (hinst : ∀ j, instCount st.factoryCalls j = 0) : Inv st := by
  constructor
  · intro j
    rw [htasks, hev]
    simp [createCount, List.lookup]
  · intro j
    rw [htasks, hinst j]
    simp [List.lookup]
  · intro j _
    exact hinst j
  · intro e he
    rw [htasks] at he
    simp at he
  · rw [htasks]
    simp

/-- The driver loop preserves the invariant. -/
theorem runTasks_inv (ex : Executor) (beh : Behavior) (hasCtx : Bool)
    (fuel : Nat) :
    ∀ ids st st', runTasks ex beh hasCtx fuel ids st = some st' → Inv st →
      Inv st' := by
  intro ids
  induction ids with
  | nil =>
      intro st st' h hInv
      simp [runTasks] at h
      exact h ▸ hInv
  | cons id rest ih =>
      intro st st' h hInv
      simp only [runTasks] at h
      cases hg : getTaskF ex beh hasCtx fuel id st with
      | none => simp [hg] at h
      | some p =>
          obtain ⟨r, st₁⟩ := p
          simp only [hg] at h
          simp at h
          obtain ⟨hInv₁, _, _⟩ :=
            getTaskF_contract ex beh hasCtx fuel id st r st₁ hg hInv
          exact ih st₁ st' h hInv₁

/-- The sweep never touches the task map, the factory-call log or the
invocation log, and appends no `create_task` events. -/
theorem sweep_sig (dependencies : List (String × List String)) (fuel : Nat) :
    ∀ tasks paused st p st',
      sweep dependencies fuel tasks paused st = some (p, st') →
      st'.node_tasks = st.node_tasks ∧ st'.factoryCalls = st.factoryCalls ∧
      st'.invocations = st.invocations ∧
      (∀ j, createCount st'.events j = createCount st.events j) := by
  intro tasks
  induction tasks with
  | nil =>
      intro paused st p st' h
      simp only [sweep, Option.some.injEq, Prod.mk.injEq] at h
      obtain ⟨h1, h2⟩ := h
      subst h2
      exact ⟨rfl, rfl, rfl, fun j => rfl⟩
  | cons e rest ih =>
      intro paused st p st' h
      obtain ⟨id, ts⟩ := e
      cases ts with
      | running => exact ih paused st p st' h
      | done r =>
          cases r with
          | ok v => exact ih paused st p st' h
          | error er =>
              simp only [sweep] at h
              by_cases hp : isPauseExc er = true
              · rw [if_pos hp] at h
                exact ih _ st p st' h
              · rw [if_neg hp] at h
                cases paused with
                | none =>
                    obtain ⟨h1, h2, h3, h4⟩ := ih _ _ p st' h
                    exact ⟨h1, h2, h3, fun j => h4 j⟩
                | some pz =>
                    cases hw : downstreamWalk dependencies pz fuel id with
                    | none => simp [hw] at h
                    | some b =>
                        simp [hw] at h
                        cases b with
                        | true =>
                            simp only [if_true] at h
                            obtain ⟨h1, h2, h3, h4⟩ := ih _ _ p st' h
                            refine ⟨h1, h2, h3, fun j => ?_⟩
                            rw [h4 j]
                            exact createCount_update _ _ _ _ _ _
                        | false =>
                            simp only [Bool.false_eq_true, if_false] at h
                            obtain ⟨h1, h2, h3, h4⟩ := ih _ _ p st' h
                            exact ⟨h1, h2, h3, fun j => h4 j⟩

/-- If no completed task raised a `PauseException`, the sweep leaves the
remembered pause id unchanged. -/
theorem sweep_paused (dependencies : List (String × List String)) (fuel : Nat) :
    ∀ tasks paused st p st',
      sweep dependencies fuel tasks paused st = some (p, st') →
      (∀ e ∈ tasks, ∀ r, e.2 = TaskState.done r → resultNoPause r) →
      p = paused := by
  intro tasks
  induction tasks with
  | nil =>
      intro paused st p st' h _
      simp only [sweep, Option.some.injEq, Prod.mk.injEq] at h
      exact h.1.symm
  | cons e rest ih =>
      intro paused st p st' h hnp
      obtain ⟨id, ts⟩ := e
      have hrest : ∀ e ∈ rest, ∀ r, e.2 = TaskState.done r → resultNoPause r :=
        fun e he => hnp e (List.mem_cons_of_mem _ he)
      cases ts with
      | running => exact ih paused st p st' h hrest
      | done r =>
          cases r with
          | ok v => exact ih paused st p st' h hrest
          | error er =>
              simp only [sweep] at h
              by_cases hp : isPauseExc er = true
              · exfalso
                cases er with
                | pauseExc pnid pout =>
                    exact hnp (id, TaskState.done (.error (.pauseExc pnid pout)))
                      (List.mem_cons_self _ _) _ rfl pnid pout rfl
                | upstreamFailure => simp [isPauseExc] at hp
                | unconnectedNode => simp [isPauseExc] at hp
                | valueError => simp [isPauseExc] at hp
                | keyError => simp [isPauseExc] at hp
                | nodeFailure => simp [isPauseExc] at hp
                | stopIteration => simp [isPauseExc] at hp
              · rw [if_neg hp] at h
                cases paused with
                | none => exact ih _ _ p st' h hrest
                | some pz =>
                    cases hw : downstreamWalk dependencies pz fuel id with
                    | none => simp [hw] at h
                    | some b =>
                        simp [hw] at h
                        cases b with
                        | true =>
                            simp only [if_true] at h
                            exact ih _ _ p st' h hrest
                        | false =>
                            simp only [Bool.false_eq_true, if_false] at h
                            exact ih _ _ p st' h hrest

/-! ## The claims. -/

/-- C1 (amended): for every run of the scheduler, `create_task(N, …)` is
invoked at most once per node id, the task map holds at most one execution
handle per node id (`_get_async_task_for_node_execution` is an idempotent
lookup), and `_execute_node` instantiates each node via the factory at most
once.  The original claim fails because `run` additionally instantiates and
invokes the top-level `InputNode` directly (lines 448-453), so that node is
factory-instantiated twice per default run even excluding schema-only
instantiation (see the counterexample). -/
theorem claim_C1 (ex : Executor) (beh : Behavior) (hasCtx : Bool) (fuel : Nat)
    (input : Input) (node_ids : List String) (pre : List (String × Precomp))
    (res : RunRes) (st : St)
    (h : runModel ex beh hasCtx fuel input node_ids pre = some (res, st)) :
    ∀ id, createCount st.events id ≤ 1 ∧ instCount st.factoryCalls id ≤ 1 ∧
      (st.node_tasks.map Prod.fst).Nodup := by
  obtain ⟨hpt, hpi, hpe, hpf⟩ := precompPhase_sig ex beh pre St.empty
  unfold runModel at h
  cases hfind : ex.workflow.nodes.find?
      (fun node => node.node_type == "InputNode" && !strTruthy node.parent_id) with
  | none =>
      simp only [hfind, Option.some.injEq, Prod.mk.injEq] at h
      obtain ⟨hres, hst⟩ := h
      subst hst
      intro id
      refine ⟨?_, ?_, ?_⟩
      · rw [hpe]
        simp [St.empty, createCount]
      · rw [hpf id]
        simp [St.empty, instCount]
      · rw [hpt]
        simp [St.empty]
  | some inode =>
      simp only [hfind] at h
      cases hcall : beh.call inode.title inode.node_type inode.config input with
      | pause pnid pout =>
          simp only [hcall, Option.some.injEq, Prod.mk.injEq] at h
          obtain ⟨hres, hst⟩ := h
          subst hst
          intro id
          refine ⟨?_, ?_, ?_⟩
          · show createCount (precompPhase ex beh pre St.empty).events id ≤ 1
            rw [hpe]
            simp [St.empty, createCount]
          · show instCount ((precompPhase ex beh pre St.empty).factoryCalls ++
              [(FPurpose.inputSeed, inode.id)]) id ≤ 1
            rw [instCount_append, hpf id]
            simp [St.empty, instCount]
          · show ((precompPhase ex beh pre St.empty).node_tasks.map Prod.fst).Nodup
            rw [hpt]
            simp [St.empty]
      | fail =>
          simp only [hcall, Option.some.injEq, Prod.mk.injEq] at h
          obtain ⟨hres, hst⟩ := h
          subst hst
          intro id
          refine ⟨?_, ?_, ?_⟩
          · show createCount (precompPhase ex beh pre St.empty).events id ≤ 1
            rw [hpe]
            simp [St.empty, createCount]
          · show instCount ((precompPhase ex beh pre St.empty).factoryCalls ++
              [(FPurpose.inputSeed, inode.id)]) id ≤ 1
            rw [instCount_append, hpf id]
            simp [St.empty, instCount]
          · show ((precompPhase ex beh pre St.empty).node_tasks.map Prod.fst).Nodup
            rw [hpt]
            simp [St.empty]
      | ok seedOut =>
          simp only [hcall] at h
          split at h
          · exact absurd h (by simp)
          · rename_i st5 hrt
            split at h
            · exact absurd h (by simp)
            · rename_i pausedId st6 hsw
              have hclean : ∀ j,
                  instCount ((precompPhase ex beh pre St.empty).factoryCalls ++
                    [(FPurpose.inputSeed, inode.id)]) j = 0 := fun j => by
                rw [instCount_append, hpf j]
                simp [St.empty, instCount]
              have hInv5 := runTasks_inv ex beh hasCtx fuel _ _ _ hrt
                (Inv_clean _ hpt hpe hclean)
              obtain ⟨hs1, hs2, hs3, hs4⟩ :=
                sweep_sig ex.dependencies fuel _ _ _ _ _ hsw
              have hpnone : pausedId = none :=
                sweep_paused ex.dependencies fuel _ _ _ _ _ hsw hInv5.no_pause
              simp only [hpnone, Option.some.injEq, Prod.mk.injEq] at h
              obtain ⟨hres, hst⟩ := h
              subst hst
              intro id
              refine ⟨?_, ?_, ?_⟩
              · rw [hs4 id, hInv5.create_eq id]
                cases (st5.node_tasks.lookup id).isSome <;> simp
              · rw [hs2]
                calc instCount st5.factoryCalls id ≤ _ := hInv5.inst_le id
                  _ ≤ 1 := by cases (st5.node_tasks.lookup id).isSome <;> simp
              · rw [hs1]
                exact hInv5.keys_nodup

/-- C1 counterexample: in a plain run of the linear workflow the top-level
`InputNode` `"I"` is factory-instantiated twice even when schema-only
instantiations are excluded — once by `run`'s seeding code and once by its
own `_execute_node` task (its seeded output is popped at line 466). -/
theorem claim_C1_counterexample :
    (runModel (exOf wfLinear) behLinear true 20 exInput [] []).map
      (fun p => (nonSchemaCount p.2.factoryCalls "I",
        (p.2.invocations.map Prod.fst).count "I")) = some (2, 2) := rfl

/-- C1 witness: the amended bound evaluated on the linear example run. -/
theorem claim_C1_witness :
    createCount (((runModel (exOf wfLinear) behLinear true 20 exInput [] []).getD
      (Except.ok [], St.empty)).2).events "I" ≤ 1 :=
  (claim_C1 (exOf wfLinear) behLinear true 20 exInput [] [] _ _ rfl "I").1

theorem tasksPauseFree_of {st : St}
    (h : ∀ e ∈ st.node_tasks, ∀ r, e.2 = TaskState.done r → resultNoPause r) :
    tasksPauseFree st = true := by
  rw [tasksPauseFree, List.all_eq_true]
  intro e he
  cases hts : e.2 with
  | running => simp
  | done r =>
      cases r with
      | ok v => simp
      | error er =>
          cases er with
          | pauseExc p o => exact absurd rfl (h e he _ hts p o)
          | upstreamFailure => simp
          | unconnectedNode => simp
          | valueError => simp
          | keyError => simp
          | nodeFailure => simp
          | stopIteration => simp

/-- C2 (amended): a `PauseException` raised inside a node invocation is
caught by `_execute_node`, which stores the pause output, records `PAUSED`,
marks the run record `PAUSED`, and returns the output normally; therefore
no execution handle ever completes with a `PauseException`, the driver
sweep's pause branch never fires, and `run()` returns the map of non-null
outputs (containing the pause output) instead of re-raising `Pause`.  The
only way `run()` can raise a `PauseException` is from the direct
input-node seeding invocation at line 453, before any execution handle
exists.  Node failures are likewise collected by the sweep, never re-raised.
The original claim fails because the sweep's pause handling is dead code:
`run()` returns normally even when a pause occurred (counterexample). -/
theorem claim_C2 (ex : Executor) (beh : Behavior) (hasCtx : Bool) (fuel : Nat)
    (input : Input) (node_ids : List String) (pre : List (String × Precomp))
    (res : RunRes) (st : St)
    (h : runModel ex beh hasCtx fuel input node_ids pre = some (res, st)) :
    tasksPauseFree st = true ∧
    (raisesPause res = false ∨ st.node_tasks = []) := by
  obtain ⟨hpt, hpi, hpe, hpf⟩ := precompPhase_sig ex beh pre St.empty
  unfold runModel at h
  cases hfind : ex.workflow.nodes.find?
      (fun node => node.node_type == "InputNode" && !strTruthy node.parent_id) with
  | none =>
      simp only [hfind, Option.some.injEq, Prod.mk.injEq] at h
      obtain ⟨hres, hst⟩ := h
      subst hst
      subst hres
      refine ⟨?_, Or.inr hpt⟩
      rw [tasksPauseFree, List.all_eq_true]
      intro e he
      rw [hpt] at he
      simp [St.empty] at he
  | some inode =>
      simp only [hfind] at h
      cases hcall : beh.call inode.title inode.node_type inode.config input with
      | pause pnid pout =>
          simp only [hcall, Option.some.injEq, Prod.mk.injEq] at h
          obtain ⟨hres, hst⟩ := h
          subst hst
          subst hres
          refine ⟨?_, Or.inr hpt⟩
          rw [tasksPauseFree, List.all_eq_true]
          intro e he
          have he' : e ∈ (precompPhase ex beh pre St.empty).node_tasks := he
          rw [hpt] at he'
          simp [St.empty] at he'
      | fail =>
          simp only [hcall, Option.some.injEq, Prod.mk.injEq] at h
          obtain ⟨hres, hst⟩ := h
          subst hst
          subst hres
          refine ⟨?_, Or.inr hpt⟩
          rw [tasksPauseFree, List.all_eq_true]
          intro e he
          have he' : e ∈ (precompPhase ex beh pre St.empty).node_tasks := he
          rw [hpt] at he'
          simp [St.empty] at he'
      | ok seedOut =>
          simp only [hcall] at h
          split at h
          · exact absurd h (by simp)
          · rename_i st5 hrt
            split at h
            · exact absurd h (by simp)
            · rename_i pausedId st6 hsw
              have hclean : ∀ j,
                  instCount ((precompPhase ex beh pre St.empty).factoryCalls ++
                    [(FPurpose.inputSeed, inode.id)]) j = 0 := fun j => by
                rw [instCount_append, hpf j]
                simp [St.empty, instCount]
              have hInv5 := runTasks_inv ex beh hasCtx fuel _ _ _ hrt
                (Inv_clean _ hpt hpe hclean)
              obtain ⟨hs1, hs2, hs3, hs4⟩ :=
                sweep_sig ex.dependencies fuel _ _ _ _ _ hsw
              have hpnone : pausedId = none :=
                sweep_paused ex.dependencies fuel _ _ _ _ _ hsw hInv5.no_pause
              simp only [hpnone, Option.some.injEq, Prod.mk.injEq] at h
              obtain ⟨hres, hst⟩ := h
              subst hst
              subst hres
              refine ⟨?_, Or.inl rfl⟩
              apply tasksPauseFree_of
              intro e he r hr
              rw [hs1] at he
              exact hInv5.no_pause e he r hr

/-- C2 counterexample: on `wfPause` the human-intervention node pauses
(`PAUSED` recorded, run record marked `PAUSED`) and a sibling fails, yet
`run()` returns normally rather than raising `Pause`; and with no pause at
all, a node failure is still not re-raised by `run()`. -/
theorem claim_C2_counterexample :
    (runModel (exOf wfPause) behPause true 30 exInput [] []).map
      (fun p => (runResOk p.1,
        p.2.events.contains (.updateTask "H" .paused false none),
        p.2.events.contains (.updateTask "S" .failed false (some "traceback")),
        p.2.runRecordPaused)) = some (true, true, true, true) ∧
    (runModel (exOf wfPause) behPauseFree true 30 exInput [] []).map
      (fun p => (runResOk p.1,
        p.2.events.contains (.updateTask "S" .failed false (some "traceback"))))
      = some (true, true) := ⟨rfl, rfl⟩

/-- C2 witness: the amended statement evaluated on the pausing run. -/
theorem claim_C2_witness :
    tasksPauseFree (((runModel (exOf wfPause) behPause true 30 exInput [] []).getD
      (Except.ok [], St.empty)).2) = true :=
  (claim_C2 (exOf wfPause) behPause true 30 exInput [] [] _ _ rfl).1

/-- C5 (amended): a node `id` whose *direct* predecessor holds a paused
`HumanInterventionNodeOutput` (falsy `resume_time`, `id ∈ blocked_nodes`)
is recorded `PENDING` with `is_downstream_of_pause=true` by its own
execution, returns null, is not added to `failed_nodes`, is never
instantiated or invoked, and no `FAILED` record is written for it.  The
original claim fails for *transitive* descendants of the paused node: the
pause gate (lines 197-208) inspects direct dependencies only, so a blocked
node further down the chain is `CANCELED` by null gating instead of
`PENDING` (see the counterexample); the driver-sweep downgrade path that
would handle deeper descendants is unreachable because no task ever raises
`PauseException` (claim C2). -/
theorem claim_C5 (ex : Executor) (beh : Behavior) (hasCtx : Bool) (n : Nat)
    (st : St) (id : String) (node : WorkflowNodeSchema) (deps : List String)
    (rs : List ExecResult)
    (hnd : ex.node_dict.lookup id = some node)
    (htask : st.node_tasks.lookup id = none)
    (hout : st.outputs.lookup id = none)
    (hdeps : ex.dependencies.lookup id = some deps)
    (hdone : doneResults st deps = some rs)
    (hok : rs.any isErr = false)
    (hblock : deps.any (fun dep => blocksNode st dep id) = true) :
    ∃ st', getTaskF ex beh hasCtx (n + 2) id st = some (.ok none, st') ∧
      st'.events = st.events ++
        [Event.createTask id, Event.updateTask id .pending true none] ∧
      st'.failed_nodes = st.failed_nodes ∧
      st'.factoryCalls = st.factoryCalls ∧
      st'.invocations = st.invocations ∧
      st'.outputs = st.outputs ∧
      failedCount st'.events id = failedCount st.events id := by
  rw [getTaskF_succ]
  simp only [htask]
  have hd1 : doneResults { st with
      node_tasks := st.node_tasks ++ [(id, TaskState.running)],
      events := st.events ++ [Event.createTask id] } deps = some rs :=
    doneResults_mono (fun k v hv => lookup_append_some _ hv) deps hdone
  have hg := gatherWith_done ex beh hasCtx n _ deps rs hd1
  have hexec := execNode_pause ex beh hasCtx
    (fun d s => getTaskF ex beh hasCtx (n + 1) d s) id node deps rs
    ({ st with
      node_tasks := st.node_tasks ++ [(id, TaskState.running)],
      events := st.events ++ [Event.createTask id] })
    hnd hout hdeps hg hok hblock
  rw [hexec]
  refine ⟨_, rfl, ?_, rfl, rfl, rfl, rfl, ?_⟩
  · simp [St.record]
  · show failedCount ((st.events ++ [Event.createTask id]) ++
        [Event.updateTask id TaskStatus.pending true none]) id =
      failedCount st.events id
    rw [failedCount_update, failedCount_create]
    simp

/-- C5 counterexample: in the chain `I → H → M → N` with the paused `H`
blocking both `M` and `N`, the direct successor `M` is recorded `PENDING`
downstream-of-pause, but the transitive blocked node `N` is recorded
`CANCELED`, not `PENDING`, contradicting the claim. -/
theorem claim_C5_counterexample :
    (runModel (exOf wfChain) behChain true 30 exInput [] []).map
      (fun p => (p.2.events.contains (.updateTask "M" .pending true none),
        p.2.events.contains (.updateTask "N" .canceled false none),
        p.2.events.contains (.updateTask "N" .pending true none)))
      = some (true, true, false) := rfl

/-- C5 witness: the pause-gating theorem applied to node `"N"` of the
`wfNullAndPause` workflow at the point where its dependencies `X` (null)
and `H` (paused, blocking `N`) have completed. -/
theorem claim_C5_witness :
    ∃ st', getTaskF (exOf wfNullAndPause) behNullAndPause true 7 "N" wit5st =
        some (.ok none, st') ∧
      st'.events = wit5st.events ++
        [Event.createTask "N", Event.updateTask "N" .pending true none] ∧
      st'.failed_nodes = wit5st.failed_nodes ∧
      st'.factoryCalls = wit5st.factoryCalls ∧
      st'.invocations = wit5st.invocations ∧
      st'.outputs = wit5st.outputs ∧
      failedCount st'.events "N" = failedCount wit5st.events "N" :=
  claim_C5 (exOf wfNullAndPause) behNullAndPause true 5 wit5st "N"
    (mkNode "N" "TaskNode") ["X", "H"]
    [.ok none, .ok (some (.human ["N"] none))]
    rfl rfl rfl rfl rfl rfl rfl

/-- C3 (corrected): when a non-`CoalesceNode` node's gathered predecessor
results contain a null and no predecessor blocks it via a pause output or a
recorded failure, the scheduler sets `outputs[id] = null`, records the node
`CANCELED`, and neither instantiates nor invokes it; and on the
`wfRouterCoalesce` example the `CoalesceNode` consumer `C` is exempt: it is
invoked with only its non-null input `R` although its predecessor `X` is
null. The claim as stated is wrong: a pause output among the predecessors
preempts the null gate (see the counterexample). -/
theorem claim_C3 (ex : Executor) (beh : Behavior) (hasCtx : Bool) (n : Nat)
    (st : St) (id : String) (node : WorkflowNodeSchema) (deps : List String)
    (rs : List ExecResult)
    (hnd : ex.node_dict.lookup id = some node)
    (htask : st.node_tasks.lookup id = none)
    (hout : st.outputs.lookup id = none)
    (hdeps : ex.dependencies.lookup id = some deps)
    (hdone : doneResults st deps = some rs)
    (hok : rs.any isErr = false)
    (hnoblock : deps.any (fun dep => blocksNode st dep id) = false)
    (hnofail : deps.any (fun dep => st.failed_nodes.contains dep) = false)
    (hcoal : (node.node_type != "CoalesceNode") = true)
    (hnull : (rs.map execValue).any Option.isNone = true) :
    (∃ st', getTaskF ex beh hasCtx (n + 2) id st = some (.ok none, st') ∧
      st'.outputs = aset st.outputs id none ∧
      st'.events = st.events ++
        [Event.createTask id, Event.updateTask id .canceled false none] ∧
      st'.factoryCalls = st.factoryCalls ∧
      st'.invocations = st.invocations ∧
      st'.failed_nodes = st.failed_nodes) ∧
    (runModel (exOf wfRouterCoalesce) behRouter true 30 exInput [] []).map
      (fun p => (p.2.invocations.lookup "C", p.2.outputs.lookup "X")) =
      some (some [("R", some (.basic "av"))], some none) := by
  refine ⟨?_, rfl⟩
  rw [getTaskF_succ]
  simp only [htask]
  have hd1 : doneResults { st with
      node_tasks := st.node_tasks ++ [(id, TaskState.running)],
      events := st.events ++ [Event.createTask id] } deps = some rs :=
    doneResults_mono (fun k v hv => lookup_append_some _ hv) deps hdone
  have hg := gatherWith_done ex beh hasCtx n _ deps rs hd1
  have hexec := execNode_nullGate ex beh hasCtx
    (fun d s => getTaskF ex beh hasCtx (n + 1) d s) id node deps rs
    ({ st with
      node_tasks := st.node_tasks ++ [(id, TaskState.running)],
      events := st.events ++ [Event.createTask id] })
    hnd hout hdeps hg hok hnoblock hnofail hcoal hnull
  rw [hexec]
  refine ⟨_, rfl, rfl, ?_, rfl, rfl, rfl⟩
  simp [St.record]

/-- C3 counterexample: in `wfNullAndPause`, node `N` has the null
predecessor `X` (`outputs[X] = null`), yet `N` is recorded `PENDING`, never
`CANCELED`: the pause gate for `H` preempts the null gate, contradicting
the claimed implication. -/
theorem claim_C3_counterexample :
    (runModel (exOf wfNullAndPause) behNullAndPause true 30 exInput [] []).map
      (fun p => (p.2.outputs.lookup "X",
        p.2.events.contains (.updateTask "N" .canceled false none),
        p.2.events.contains (.updateTask "N" .pending true none),
        p.2.invocations.map Prod.fst))
      = some (some none, false, true, ["I", "I", "R", "H"]) := rfl

/-- C3 witness: the null gate applied to consumer `C` of `wfRouterTwo` at
the point where `R` completed with a routed value and `X` completed null. -/
theorem claim_C3_witness :
    (∃ st', getTaskF (exOf wfRouterTwo) behRouter true 7 "C" wit3st =
        some (.ok none, st') ∧
      st'.outputs = aset wit3st.outputs "C" none ∧
      st'.events = wit3st.events ++
        [Event.createTask "C", Event.updateTask "C" .canceled false none] ∧
      st'.factoryCalls = wit3st.factoryCalls ∧
      st'.invocations = wit3st.invocations ∧
      st'.failed_nodes = wit3st.failed_nodes) ∧
    (runModel (exOf wfRouterCoalesce) behRouter true 30 exInput [] []).map
      (fun p => (p.2.invocations.lookup "C", p.2.outputs.lookup "X")) =
      some (some [("R", some (.basic "av"))], some none) :=
  claim_C3 (exOf wfRouterTwo) behRouter true 5 wit3st "C"
    (mkNode "C" "TaskNode") ["R", "X"]
    [.ok (some (.router [("a", some (.basic "av")), ("b", none)])), .ok none]
    rfl rfl rfl rfl rfl rfl rfl rfl rfl rfl

/-- C4 (corrected): for a consumer `id` having the router `R` among its
predecessors, with `h` the handle on the link `R → id`: (a) if `R`'s routed
value at `h` is null, the assembly loop cancels `id` — `outputs[id] = null`,
recorded `CANCELED`, never instantiated or invoked; (b) if the assembly
loop succeeds (the precondition for invoking `id`), `R`'s routed value at
`h` is non-null. The claimed iff is wrong: a non-router null predecessor
also prevents invocation even when the selected route is non-null (see the
counterexample). -/
theorem claim_C4 (ex : Executor) (beh : Behavior) (hasCtx : Bool) (n : Nat)
    (st : St) (id : String) (node Rnode : WorkflowNodeSchema)
    (deps : List String) (rs : List ExecResult)
    (handles : List ((String × String) × String)) (R h : String)
    (hnd : ex.node_dict.lookup id = some node)
    (htask : st.node_tasks.lookup id = none)
    (hout : st.outputs.lookup id = none)
    (hdeps : ex.dependencies.lookup id = some deps)
    (hdone : doneResults st deps = some rs)
    (hok : rs.any isErr = false)
    (hnoblock : deps.any (fun dep => blocksNode st dep id) = false)
    (hnofail : deps.any (fun dep => st.failed_nodes.contains dep) = false)
    (hnonull : ((node.node_type != "CoalesceNode") &&
      (rs.map execValue).any Option.isNone) = false)
    (hsh : getSourceHandles ex = .ok handles)
    (hlen : deps.length = rs.length)
    (hres : ∀ d ∈ deps, (ex.node_dict.lookup d).isSome)
    (hhand : ∀ d ∈ deps, ∀ nd, ex.node_dict.lookup d = some nd →
      nd.node_type = "RouterNode" → (handles.lookup (d, id)).isSome)
    (hR : R ∈ deps)
    (hRnode : ex.node_dict.lookup R = some Rnode)
    (hRrouter : Rnode.node_type = "RouterNode")
    (hh : handles.lookup (R, id) = some h) :
    ((∀ p ∈ deps.zip (rs.map execValue), p.1 = R → pyGetattr p.2 h = none) →
      ∃ st', getTaskF ex beh hasCtx (n + 2) id st = some (.ok none, st') ∧
        st'.outputs = aset st.outputs id none ∧
        st'.events = st.events ++
          [Event.createTask id, Event.updateTask id .canceled false none] ∧
        st'.factoryCalls = st.factoryCalls ∧
        st'.invocations = st.invocations) ∧
    (∀ raw, assembleInput ex handles id deps (rs.map execValue) = .ok raw →
      ∀ p ∈ deps.zip (rs.map execValue), p.1 = R →
        (pyGetattr p.2 h).isSome) := by
  constructor
  · intro hnullroute
    obtain ⟨v, hv⟩ := exists_zip_of_mem (rs.map execValue)
      (by simpa using hlen) hR
    have hasm : assembleInput ex handles id deps (rs.map execValue) =
        .error .cancelRoute :=
      assembleInput_null_cancel ex handles id deps (rs.map execValue)
        hres hhand ⟨(R, v), hv, Rnode, h, hRnode, hRrouter, hh,
          hnullroute (R, v) hv rfl⟩
    rw [getTaskF_succ]
    simp only [htask]
    have hd1 : doneResults { st with
        node_tasks := st.node_tasks ++ [(id, TaskState.running)],
        events := st.events ++ [Event.createTask id] } deps = some rs :=
      doneResults_mono (fun k v hv => lookup_append_some _ hv) deps hdone
    have hg := gatherWith_done ex beh hasCtx n _ deps rs hd1
    have hexec := execNode_cancelRoute ex beh hasCtx
      (fun d s => getTaskF ex beh hasCtx (n + 1) d s) id node deps rs handles
      ({ st with
        node_tasks := st.node_tasks ++ [(id, TaskState.running)],
        events := st.events ++ [Event.createTask id] })
      hnd hout hdeps hg hok hnoblock hnofail hnonull hsh hasm
    rw [hexec]
    refine ⟨_, rfl, rfl, ?_, rfl, rfl⟩
    simp [St.record]
  · intro raw hasm p hp hpR
    exact assembleInput_ok_routes ex handles id deps (rs.map execValue) raw
      hasm p hp Rnode h (hpR ▸ hRnode) hRrouter (hpR ▸ hh)

/-- C4 counterexample: in `wfRouterTwo`, router `R` selects handle `"a"`
feeding consumer `C` with a non-null value, yet `C` is canceled and never
invoked, because its other predecessor `X` (fed by the unselected handle
`"b"`) is null — refuting the claimed "invoked iff h == h' and the routed
value is non-null". -/
theorem claim_C4_counterexample :
    (runModel (exOf wfRouterTwo) behRouter true 30 exInput [] []).map
      (fun p => (p.2.outputs.lookup "C",
        p.2.events.contains (.updateTask "C" .canceled false none),
        p.2.invocations.lookup "C")) = some (some none, true, none) := rfl

/-- C4 witness: the invoked-implies-non-null direction applied to consumer
`C` of `wfRouterTwo` with both predecessors completed non-null: the routed
value at the selected handle `"a"` is non-null. -/
theorem claim_C4_witness :
    (pyGetattr (some (NodeOutput.router [("a", some (.basic "av")), ("b", none)]))
      "a").isSome = true := by
  have hmain := claim_C4 (exOf wfRouterTwo) behRouter true 5 wit4st "C"
    (mkNode "C" "TaskNode") (mkNode "R" "RouterNode") ["R", "X"]
    [.ok (some (.router [("a", some (.basic "av")), ("b", none)])),
      .ok (some (.basic "xv"))]
    [(("R", "C"), "a"), (("R", "X"), "b")] "R" "a"
    rfl rfl rfl rfl rfl rfl rfl rfl rfl rfl rfl
    (by intro d hd; fin_cases hd <;> rfl)
    (by
      intro d hd nd hnd hrt
      fin_cases hd
      · rfl
      · have h0 : (exOf wfRouterTwo).node_dict.lookup "X" =
            some (mkNode "X" "TaskNode") := rfl
        rw [h0] at hnd
        cases hnd
        exact absurd hrt (by decide))
    (List.mem_cons_self _ _) rfl rfl rfl
  exact hmain.2
    [("R", some (.basic "av")), ("X", some (.basic "xv"))] rfl
    ("R", some (.router [("a", some (.basic "av")), ("b", none)]))
    (List.mem_cons_self _ _) rfl

/-- C6 (corrected): a dict entry of `precomputed_outputs` whose payload
validates is stored into `outputs` after a schema-only factory call; in a
run restricted to `node_ids = ["O"]` the precomputed node `B` is neither
instantiated nor invoked and its consumer `O` receives the supplied output;
and an invalid payload is skipped without failing the run. The claim is
wrong for default runs: with empty `node_ids`, every node is in
`nodes_to_run`, so the precomputed output is popped and `B` is re-executed
(see the counterexample). -/
theorem claim_C6 (ex : Executor) (beh : Behavior) (st : St) (id : String)
    (payload : Input) (node : WorkflowNodeSchema) (v : NodeOutput)
    (hnd : ex.node_dict.lookup id = some node)
    (hval : beh.validate node.title node.node_type node.config payload = .ok v) :
    (precompStep ex beh st (id, .dictP payload) =
      { st with
        factoryCalls := st.factoryCalls ++ [(FPurpose.schemaValidation, id)],
        outputs := aset st.outputs id (some v) }) ∧
    ((runModel (exOf wfLinear) behPre true 30 exInput ["O"] preB).map
      (fun p => (instCount p.2.factoryCalls "B", p.2.invocations.lookup "B",
        p.2.outputs.lookup "B", p.2.invocations.lookup "O")) =
      some (0, none, some (some (.basic "preB")),
        some [("B", some (.basic "preB"))])) ∧
    ((runModel (exOf wfLinear) behLinear true 30 exInput [] preB).map
      (fun p => (runResOk p.1, p.2.outputs.lookup "O")) =
      some (true, some (some (.basic "ov")))) := by
  refine ⟨?_, rfl, rfl⟩
  unfold precompStep
  simp only [hnd, hval]

/-- C6 counterexample: in a default run (`node_ids = []`) of `wfLinear`
with a valid precomputed output for `B`, node `B` is nonetheless
instantiated and invoked and its supplied output is discarded (`outputs[B]`
ends as the freshly computed `"bv"`, not `"preB"`), because `run` pops
precomputed outputs for every node in `nodes_to_run`. -/
theorem claim_C6_counterexample :
    (runModel (exOf wfLinear) behPre true 30 exInput [] preB).map
      (fun p => (instCount p.2.factoryCalls "B",
        p.2.invocations.map Prod.fst, p.2.outputs.lookup "B")) =
      some (1, ["I", "I", "B", "O"], some (some (.basic "bv"))) := rfl

/-- C6 witness: the precomputed-entry theorem applied to node `B` of
`wfLinear` with the payload of `preB` under the accepting validator of
`behPre`. -/
theorem claim_C6_witness :
    (precompStep (exOf wfLinear) behPre St.empty
        ("B", .dictP [("resp", some (.basic "pv"))]) =
      { St.empty with
        factoryCalls := St.empty.factoryCalls ++
          [(FPurpose.schemaValidation, "B")],
        outputs := aset St.empty.outputs "B" (some (.basic "preB")) }) ∧
    ((runModel (exOf wfLinear) behPre true 30 exInput ["O"] preB).map
      (fun p => (instCount p.2.factoryCalls "B", p.2.invocations.lookup "B",
        p.2.outputs.lookup "B", p.2.invocations.lookup "O")) =
      some (0, none, some (some (.basic "preB")),
        some [("B", some (.basic "preB"))])) ∧
    ((runModel (exOf wfLinear) behLinear true 30 exInput [] preB).map
      (fun p => (runResOk p.1, p.2.outputs.lookup "O")) =
      some (true, some (some (.basic "ov")))) :=
  claim_C6 (exOf wfLinear) behPre St.empty "B"
    [("resp", some (.basic "pv"))] (mkNode "B" "TaskNode") (.basic "preB")
    rfl rfl

/-- C7 (corrected): the hoisting helper `_process_subworkflows` does
implement the round-trip — every node of its result has `parent_id = null`,
a link survives at top level iff neither endpoint has a truthy `parent_id`,
and on `wfParent` the removed child link `A → B` lands in exactly parent
`P`'s `config.subworkflow.links`. The claim is wrong about the constructor:
`__init__` never calls `_process_subworkflows`, so children keep their
`parent_id` in the constructed scheduler (see the counterexample). -/
theorem claim_C7 (wf : WorkflowDefinitionSchema) (link : Link) :
    (∀ n ∈ (processSubworkflows wf).nodes, n.parent_id = none) ∧
    (link ∈ (processSubworkflows wf).links ↔
      link ∈ wf.links ∧ ∀ node ∈ wf.nodes,
        ¬((node.id = link.source_id ∨ node.id = link.target_id) ∧
          strTruthy node.parent_id = true)) ∧
    (processSubworkflows wfParent =
      .mk [WorkflowNodeSchema.mk "I" "I" "InputNode" [] none,
          WorkflowNodeSchema.mk "P" "P" "TaskNode"
            [("subworkflow", ConfigValue.subwf
              (.mk [WorkflowNodeSchema.mk "A" "A" "TaskNode" [] none,
                  WorkflowNodeSchema.mk "B" "B" "TaskNode" [] none]
                [mkLink "A" "B"]))] none]
        [mkLink "I" "P"]) :=
  ⟨processSubworkflows_roots_clear wf, processSubworkflows_links_iff wf link, rfl⟩

/-- C7 counterexample: the constructor succeeds on `wfParent` without
hoisting: child `A` still has `parent_id = "P"` in the scheduler's
`node_dict`, because `__init__` never invokes `_process_subworkflows`. -/
theorem claim_C7_counterexample :
    initOk wfParent = true ∧
    ((exOf wfParent).node_dict.lookup "A").map WorkflowNodeSchema.parent_id =
      some (some "P") ∧
    (exOf wfParent).workflow.nodes.map WorkflowNodeSchema.parent_id =
      [none, none, some "P", some "P"] := ⟨rfl, rfl, rfl⟩

/-- C8 (corrected): the constructor fails (with a `KeyError`, not an
`InvalidGraph`) iff some link's `target_id` is dangling; a dangling
`source_id` or a router link without a `source_handle` is *not* checked at
construction — `_get_source_handles` rejects exactly those links
(`KeyError` / `ValueError`), and it only runs lazily inside
`_execute_node`, surfacing as a `FAILED` node during execution (concrete
conjuncts on `wfBadSource` / `wfNoHandle`). -/
theorem claim_C8 (wf : WorkflowDefinitionSchema) (ex : Executor) :
    (initOk wf = false ↔ wf.links.any (linkTargetMissing wf)) ∧
    ((∃ e, getSourceHandles ex = .error e) ↔
      ex.workflow.links.any (linkSourceBad ex)) ∧
    (initOk wfBadSource = true) ∧
    (getSourceHandles (exOf wfBadSource) = .error .keyError) ∧
    (initOk wfNoHandle = true) ∧
    (getSourceHandles (exOf wfNoHandle) = .error .valueError) ∧
    ((runModel (exOf wfNoHandle) behRouter true 30 exInput ["T"] []).map
      (fun p => (runResOk p.1, p.2.failed_nodes, failedCount p.2.events "R")) =
      some (true, ["R", "T"], 1)) :=
  ⟨initExecutor_error_iff wf, getSourceHandles_error_iff ex,
    rfl, rfl, rfl, rfl, rfl⟩

/-- C8 counterexample: the constructor accepts both `wfBadSource` (dangling
link `source_id`) and `wfNoHandle` (router link without a `source_handle`),
so neither check fails fast at load time; only the dangling `target_id` of
`wfBadTarget` aborts construction. -/
theorem claim_C8_counterexample :
    initOk wfBadSource = true ∧ initOk wfNoHandle = true ∧
    initOk wfBadTarget = false := ⟨rfl, rfl, rfl⟩

/-- C9 (code bug): `_serialize_value` converts a datetime to its ISO string
at the top level and inside dicts and lists, but a set is turned into
`list(val)` *without recursing into its elements*, so a datetime nested
inside a set survives unconverted — contradicting "at every nesting depth
... every datetime" and "a datetime nested inside a set is also
converted". -/
theorem claim_C9 :
    serializeValue (.pdatetime "2024-01-01T00:00:00") =
      .pstr "2024-01-01T00:00:00" ∧
    serializeValue (.pdict [(.pstr "k", .pdatetime "2024-01-01T00:00:00")]) =
      .pdict [(.pstr "k", .pstr "2024-01-01T00:00:00")] ∧
    serializeValue (.plist [.pdatetime "2024-01-01T00:00:00"]) =
      .plist [.pstr "2024-01-01T00:00:00"] ∧
    serializeValue (.pset [.pdatetime "2024-01-01T00:00:00"]) =
      .plist [.pdatetime "2024-01-01T00:00:00"] ∧
    serializeOutput (some [("t", .pset [.pdatetime "2024-01-01T00:00:00"])]) =
      some [("t", .plist [.pdatetime "2024-01-01T00:00:00"])] := by
  refine ⟨?_, ?_, ?_, ?_, ?_⟩ <;>
    simp [serializeValue, serializeOutput, pyStrKey]

/-- C10 (corrected): when no node passes the code's actual test —
`node_type == "InputNode"` with a *falsy* (`not node.parent_id`), not
merely null, `parent_id` — `run` fails with `StopIteration` from the
unguarded `next()`, before any execution handle is created, any node is
invoked, or any recorder event is emitted. The claim's "null parent_id"
reading is wrong: an `InputNode` with the empty string as `parent_id` also
satisfies the `next()` predicate (see the counterexample). -/
theorem claim_C10 (ex : Executor) (beh : Behavior) (hasCtx : Bool)
    (fuel : Nat) (input : Input) (node_ids : List String)
    (pre : List (String × Precomp))
    (h : ex.workflow.nodes.all
      (fun node =>
        !(node.node_type == "InputNode" && !strTruthy node.parent_id)) = true) :
    ∃ st, runModel ex beh hasCtx fuel input node_ids pre =
        some (.error .stopIteration, st) ∧
      st.node_tasks = [] ∧ st.invocations = [] ∧ st.events = [] := by
  have hf : ex.workflow.nodes.find? (fun node =>
      node.node_type == "InputNode" && !strTruthy node.parent_id) = none := by
    rw [List.find?_eq_none]
    intro x hx hnt
    have hx2 := (List.all_eq_true.mp h) x hx
    rw [hnt] at hx2
    simp at hx2
  unfold runModel
  simp only [hf]
  have hsig := precompPhase_sig ex beh pre St.empty
  exact ⟨_, rfl, hsig.1, hsig.2.1, hsig.2.2.1⟩

/-- C10 counterexample: `wfEmptyParentInput` has no node with
`node_type == "InputNode"` and null `parent_id` (its only `InputNode` has
`parent_id = ""`), yet `run` does not raise `StopIteration`: it seeds and
invokes that node and returns normally. -/
theorem claim_C10_counterexample :
    (wfEmptyParentInput.nodes.all
      (fun node =>
        !(node.node_type == "InputNode" && node.parent_id == none))) = true ∧
    (runModel (exOf wfEmptyParentInput) behInputOnly true 10 exInput [] []).map
      (fun p => (runResOk p.1, p.2.invocations.map Prod.fst)) =
      some (true, ["I", "I"]) := ⟨rfl, rfl⟩

/-- C10 witness: the `StopIteration` theorem applied to `wfNoInput`, which
has no `InputNode` at all. -/
theorem claim_C10_witness :
    ∃ st, runModel (exOf wfNoInput) behInputOnly true 10 exInput [] [] =
        some (.error .stopIteration, st) ∧
      st.node_tasks = [] ∧ st.invocations = [] ∧ st.events = [] :=
  claim_C10 (exOf wfNoInput) behInputOnly true 10 exInput [] [] rfl

end PySpur
